import Mathlib

/-!
# GameObject: scene-graph node of Coursework-Submission-1

A shallow embedding of `src/GameObject.cpp`.

* Scalars (`float` in the source) are the elements of a field `R`; rounding is
  not modelled, so every statement below is about exact arithmetic.
* `vec3`, `vec4`, `mat4` and the functions `translate`, `scale`, `rotate` come
  from the GLM library the source includes through its header.  They are
  written out here following GLM: a `mat4` is four columns, `m1 * m2` combines
  the columns of `m1` with the entries of each column of `m2`.
* `cos`, `sin` and `inversesqrt`, which `rotate` calls, are the fields of a
  `MathFns R` parameter.
* Objects live in a heap (a list addressed by index); a `GameObject*` is an
  index, `NULL` is `none`.
* The graphics API is a log of the calls issued together with the sets of
  object names currently in use; the names the driver hands out are given by
  a `Backend` parameter.
-/

set_option autoImplicit false

namespace GameObjectSpec

/-! ## GLM vectors and matrices -/

/-- GLM `vec2`. -/
@[ext] structure Vec2 (R : Type) where
  x : R
  y : R
deriving DecidableEq

/-- GLM `vec3`. -/
@[ext] structure Vec3 (R : Type) where
  x : R
  y : R
  z : R
deriving DecidableEq

/-- GLM `vec4`. -/
@[ext] structure Vec4 (R : Type) where
  x : R
  y : R
  z : R
  w : R
deriving DecidableEq

/-- GLM `mat4`: `value[0..3]`, the four columns. -/
@[ext] structure Mat4 (R : Type) where
  c0 : Vec4 R
  c1 : Vec4 R
  c2 : Vec4 R
  c3 : Vec4 R
deriving DecidableEq

/-- The scalar functions of the maths library that `rotate` relies on: `cos`
and `sin` as `rotate` evaluates them on its angle argument, and
`inversesqrt` as `normalize` evaluates it. -/
structure MathFns (R : Type) where
  cos : R → R
  sin : R → R
  inversesqrt : R → R

section Glm

variable {R : Type} [Field R]

/-- GLM `vec4 + vec4`. -/
def Vec4.add (a b : Vec4 R) : Vec4 R :=
  ⟨a.x + b.x, a.y + b.y, a.z + b.z, a.w + b.w⟩

/-- GLM `vec4 * scalar`. -/
def Vec4.smul (a : Vec4 R) (s : R) : Vec4 R :=
  ⟨a.x * s, a.y * s, a.z * s, a.w * s⟩

/-- GLM `vec3 * scalar`. -/
def Vec3.smul (a : Vec3 R) (s : R) : Vec3 R :=
  ⟨a.x * s, a.y * s, a.z * s⟩

/-- GLM `scalar * vec3`. -/
def Vec3.lsmul (s : R) (a : Vec3 R) : Vec3 R :=
  ⟨s * a.x, s * a.y, s * a.z⟩

/-- GLM `dot(vec3, vec3)`. -/
def Vec3.dot (a b : Vec3 R) : R :=
  a.x * b.x + a.y * b.y + a.z * b.z

/-- GLM `normalize(v)`: `v * inversesqrt(dot(v, v))`. -/
def normalize (F : MathFns R) (v : Vec3 R) : Vec3 R :=
  v.smul (F.inversesqrt (v.dot v))

/-- GLM `mat4(s)`: `s` on the diagonal, zero elsewhere. -/
def mat4 (s : R) : Mat4 R :=
  ⟨⟨s, 0, 0, 0⟩, ⟨0, s, 0, 0⟩, ⟨0, 0, s, 0⟩, ⟨0, 0, 0, s⟩⟩

/-- GLM `mat4 * vec4`: the combination of the columns of `m` with the
entries of `v`, summed pairwise. -/
def Mat4.mulVec (m : Mat4 R) (v : Vec4 R) : Vec4 R :=
  ((m.c0.smul v.x).add (m.c1.smul v.y)).add ((m.c2.smul v.z).add (m.c3.smul v.w))

/-- One column of GLM `mat4 * mat4`: the columns of `m` combined with the
entries of the column `b` of the right factor. -/
def Mat4.mulCol (m : Mat4 R) (b : Vec4 R) : Vec4 R :=
  (((m.c0.smul b.x).add (m.c1.smul b.y)).add (m.c2.smul b.z)).add (m.c3.smul b.w)

/-- GLM `mat4 * mat4`. -/
def Mat4.mul (m1 m2 : Mat4 R) : Mat4 R :=
  ⟨m1.mulCol m2.c0, m1.mulCol m2.c1, m1.mulCol m2.c2, m1.mulCol m2.c3⟩

instance : Mul (Mat4 R) := ⟨Mat4.mul⟩

instance : One (Mat4 R) := ⟨mat4 1⟩

/-- With exact scalars the GLM product is associative and `mat4(1)` is its
unit, so products of several matrices can be written without brackets. -/
instance : Monoid (Mat4 R) where
  mul_assoc a b c := by
    show Mat4.mul (Mat4.mul a b) c = Mat4.mul a (Mat4.mul b c)
    simp only [Mat4.mul, Mat4.mulCol, Vec4.add, Vec4.smul]
    ext <;> simp only [] <;> ring
  one_mul a := by
    show Mat4.mul (mat4 1) a = a
    simp only [mat4, Mat4.mul, Mat4.mulCol, Vec4.add, Vec4.smul]
    ext <;> simp
  mul_one a := by
    show Mat4.mul a (mat4 1) = a
    simp only [mat4, Mat4.mul, Mat4.mulCol, Vec4.add, Vec4.smul]
    ext <;> simp

/-- GLM `translate(m, v)`: only the last column changes. -/
def translate (m : Mat4 R) (v : Vec3 R) : Mat4 R :=
  { m with c3 := (((m.c0.smul v.x).add (m.c1.smul v.y)).add (m.c2.smul v.z)).add m.c3 }

/-- GLM `scale(m, v)`: the first three columns are scaled. -/
def scale (m : Mat4 R) (v : Vec3 R) : Mat4 R :=
  ⟨m.c0.smul v.x, m.c1.smul v.y, m.c2.smul v.z, m.c3⟩

/-- GLM `rotate(m, angle, v)`: the axis is normalised, the 3x3 rotation is
built from `cos`, `sin` and the axis, and `m` is multiplied by it. -/
def rotate (F : MathFns R) (m : Mat4 R) (angle : R) (v : Vec3 R) : Mat4 R :=
  let c := F.cos angle
  let s := F.sin angle
  let axis := normalize F v
  let temp := Vec3.lsmul (1 - c) axis
  let r00 := c + temp.x * axis.x
  let r01 := temp.x * axis.y + s * axis.z
  let r02 := temp.x * axis.z - s * axis.y
  let r10 := temp.y * axis.x - s * axis.z
  let r11 := c + temp.y * axis.y
  let r12 := temp.y * axis.z + s * axis.x
  let r20 := temp.z * axis.x + s * axis.y
  let r21 := temp.z * axis.y - s * axis.x
  let r22 := c + temp.z * axis.z
  ⟨((m.c0.smul r00).add (m.c1.smul r01)).add (m.c2.smul r02),
   ((m.c0.smul r10).add (m.c1.smul r11)).add (m.c2.smul r12),
   ((m.c0.smul r20).add (m.c1.smul r21)).add (m.c2.smul r22),
   m.c3⟩

end Glm

/-! ## The object and its heap -/

/-- Modelled from the spec: the vertex record of `Vertex.h`, which is not
among the sources: position, colour, texture coordinates, normal. -/
structure Vertex (R : Type) where
  position : Vec3 R
  colour : Vec4 R
  texCoords : Vec2 R
  normal : Vec3 R
deriving DecidableEq

/-- The data members of `GameObject` that `GameObject.cpp` reads or writes.
They are declared in `GameObject.h`, which is not among the sources; handles
are unsigned (`GLuint`), the two counts are `int`, pointers are heap indices. -/
structure GameObject (R : Type) where
  m_VBO : Nat
  m_EBO : Nat
  m_VAO : Nat
  m_ShaderProgram : Nat
  m_NoOfVertices : Int
  m_NoOfIndices : Int
  m_ModelMatrix : Mat4 R
  m_Position : Vec3 R
  m_Rotation : Vec3 R
  m_Scale : Vec3 R
  m_AmbientMaterial : Vec4 R
  m_DiffuseMaterial : Vec4 R
  m_SpecularMaterial : Vec4 R
  m_SpecularPower : R
  m_ParentGameObject : Option Nat
  m_ChildGameObjects : List Nat
deriving DecidableEq

/-- The objects in memory; a pointer is an index into this list. -/
abbrev Heap (R : Type) := List (GameObject R)

section Update

variable {R : Type} [Field R]

/-- The constructor `GameObject::GameObject()`. -/
def GameObject.new : GameObject R where
  m_VBO := 0
  m_EBO := 0
  m_VAO := 0
  m_ShaderProgram := 0
  m_NoOfVertices := 0
  m_NoOfIndices := 0
  m_ModelMatrix := mat4 1
  m_Position := ⟨0, 0, 0⟩
  m_Rotation := ⟨0, 0, 0⟩
  m_Scale := ⟨1, 1, 1⟩
  m_AmbientMaterial := ⟨0.2, 0.2, 0.2, 1⟩
  m_DiffuseMaterial := ⟨0.6, 0.6, 0.6, 1⟩
  m_SpecularMaterial := ⟨1, 1, 1, 1⟩
  m_SpecularPower := 20
  m_ParentGameObject := none
  m_ChildGameObjects := []

/-- Line 39 of `update`: `translate(mat4(1.0f), m_Position)`. -/
def translationMatrix (g : GameObject R) : Mat4 R :=
  translate (mat4 1) g.m_Position

/-- Line 40 of `update`: `scale(mat4(1.0f), m_Scale)`. -/
def scaleMatrix (g : GameObject R) : Mat4 R :=
  scale (mat4 1) g.m_Scale

/-- The rotation about the X axis in line 41 of `update`. -/
def rotationX (F : MathFns R) (g : GameObject R) : Mat4 R :=
  rotate F (mat4 1) g.m_Rotation.x ⟨1, 0, 0⟩

/-- The rotation about the Y axis in line 41 of `update`. -/
def rotationY (F : MathFns R) (g : GameObject R) : Mat4 R :=
  rotate F (mat4 1) g.m_Rotation.y ⟨0, 1, 0⟩

/-- The rotation about the Z axis in line 41 of `update`. -/
def rotationZ (F : MathFns R) (g : GameObject R) : Mat4 R :=
  rotate F (mat4 1) g.m_Rotation.z ⟨0, 0, 1⟩

/-- Line 41 of `update`: the product of the three axis rotations. -/
def rotationMatrix (F : MathFns R) (g : GameObject R) : Mat4 R :=
  rotationX F g * rotationY F g * rotationZ F g

/-- Modelled from the spec: the accessor `getModelMatrix()`, declared in
`GameObject.h`, which is not among the sources: it returns the object's world
matrix, the field `m_ModelMatrix`. -/
def GameObject.getModelMatrix (g : GameObject R) : Mat4 R :=
  g.m_ModelMatrix

/-- Lines 43-47 of `update`: the identity, or the parent's current matrix.
A parent pointer that leads nowhere has no defined result. -/
def parentModel (h : Heap R) (g : GameObject R) : Option (Mat4 R) :=
  match g.m_ParentGameObject with
  | none => some (mat4 1)
  | some p => (h[p]?).map GameObject.getModelMatrix

/-- Lines 49-50 of `update`: the matrix stored into `m_ModelMatrix`. -/
def newModelMatrix (F : MathFns R) (g : GameObject R) (parent : Mat4 R) : Mat4 R :=
  scaleMatrix g * rotationMatrix F g * translationMatrix g * parent

/-- The member function `GameObject::update()` called on the object at
`self`.  The recursion follows the child pointers, so it is bounded by `fuel`;
`none` stands for a call that does not finish within it or that follows a
dangling pointer. -/
def update (F : MathFns R) : Nat → Heap R → Nat → Option (Heap R)
  | 0, _, _ => none
  | fuel + 1, h, self =>
    match h[self]? with
    | none => none
    | some g =>
      match parentModel h g with
      | none => none
      | some parent =>
        let h1 := h.set self { g with m_ModelMatrix := newModelMatrix F g parent }
        g.m_ChildGameObjects.foldlM (fun hh child => update F fuel hh child) h1

/-- The matrix of the object's own scale, rotation and translation, the
first three factors of `newModelMatrix`. -/
def localMatrix (F : MathFns R) (g : GameObject R) : Mat4 R :=
  scaleMatrix g * rotationMatrix F g * translationMatrix g

/-- The world matrix of the object at `n`, when there is one. -/
def modelAt (h : Heap R) (n : Nat) : Option (Mat4 R) :=
  (h[n]?).map GameObject.getModelMatrix

/-- The local matrix of the object at `n`. -/
def localAt (F : MathFns R) (h : Heap R) (n : Nat) : Mat4 R :=
  match h[n]? with
  | some g => localMatrix F g
  | none => 1

/-- An object with its model matrix blanked: everything `update` leaves
alone. -/
def skeleton (g : GameObject R) : GameObject R :=
  { g with m_ModelMatrix := mat4 1 }

/-- Two heaps hold the same objects up to their model matrices. -/
def SameShape (h h' : Heap R) : Prop :=
  ∀ n : Nat, Option.map skeleton (h'[n]?) = Option.map skeleton (h[n]?)

/-- The pointers of the heap form a finite acyclic hierarchy: no parent or
child pointer dangles, and every child has a smaller rank than the object
that lists it, so following child pointers always ends. -/
def Hierarchy (rank : Nat → Nat) (h : Heap R) : Prop :=
  ∀ n g, h[n]? = some g →
    (∀ p, g.m_ParentGameObject = some p → p < h.length) ∧
    (∀ c, c ∈ g.m_ChildGameObjects → c < h.length ∧ rank c < rank n)

/-- The list `N` is a chain `N0 -> N1 -> ... -> Nk` of the heap: `N0` has no
parent, every later node has its predecessor as parent and is in its
predecessor's child list. -/
def IsChain (h : Heap R) (N : List Nat) : Prop :=
  ∀ i n, N[i]? = some n → ∃ g, h[n]? = some g ∧
    g.m_ParentGameObject = (match i with | 0 => none | k + 1 => N[k]?) ∧
    ∀ c, N[i + 1]? = some c → c ∈ g.m_ChildGameObjects

/-- The product `local(Ni) * local(Ni-1) * ... * local(N0)` along a chain. -/
def chainWorld (F : MathFns R) (h : Heap R) (N : List Nat) (i : Nat) : Mat4 R :=
  (((N.take (i + 1)).reverse).map (localAt F h)).prod

end Update

/-! ## The graphics API -/

/-- The two buffer binding points the source uses. -/
inductive BufferTarget where
  | GL_ARRAY_BUFFER
  | GL_ELEMENT_ARRAY_BUFFER
deriving DecidableEq

/-- The two shader stages the source loads. -/
inductive ShaderType where
  | VERTEX_SHADER
  | FRAGMENT_SHADER
deriving DecidableEq

/-- What the data pointer of `glBufferData` points to. -/
inductive BufferData (R : Type) where
  | vertices (pVerts : List (Vertex R))
  | indices (pindices : List Int)
deriving DecidableEq

/-- One call into the graphics API (or into the shader helpers of `Shader.h`),
with its arguments and, for the calls that return something, the result.
`glBufferData` is always called with `GL_STATIC_DRAW` and
`glVertexAttribPointer` with `GL_FLOAT, GL_FALSE`, so those arguments are not
recorded. -/
inductive GLCall (R : Type) where
  | glGenVertexArrays (name : Nat)
  | glBindVertexArray (array : Nat)
  | glGenBuffers (name : Nat)
  | glBindBuffer (target : BufferTarget) (buffer : Nat)
  | glBufferData (target : BufferTarget) (size : Int) (data : BufferData R)
  | glEnableVertexAttribArray (index : Nat)
  | glVertexAttribPointer (index : Nat) (size : Nat) (stride : Nat) (pointer : Nat)
  | loadShaderFromFile (filename : String) (shaderType : ShaderType) (shader : Nat)
  | checkForCompilerErrors (shader : Nat)
  | glCreateProgram (program : Nat)
  | glAttachShader (program : Nat) (shader : Nat)
  | glBindAttribLocation (program : Nat) (index : Nat) (name : String)
  | glLinkProgram (program : Nat)
  | checkForLinkErrors (program : Nat)
  | glDeleteShader (shader : Nat)
  | glDeleteProgram (program : Nat)
  | glDeleteBuffers (buffer : Nat)
  | glDeleteVertexArrays (array : Nat)
  | glGetUniformLocation (program : Nat) (name : String) (location : Int)
  | glUniform4fv (location : Int) (value : Vec4 R)
  | glUniform1f (location : Int) (value : R)
deriving DecidableEq

/-- The graphics context: the calls issued so far, oldest first, and the
object names that are generated and not yet deleted. -/
structure GLState (R : Type) where
  log : List (GLCall R)
  buffers : List Nat
  vertexArrays : List Nat
  programs : List Nat
  shaders : List Nat
deriving DecidableEq

/-- The driver and the platform: which name each generating call hands out in
a given context, where a uniform name is located, and how many bits a
`size_t` has. -/
structure Backend (R : Type) where
  genBuffer : GLState R → Nat
  genVertexArray : GLState R → Nat
  createProgram : GLState R → Nat
  createShader : GLState R → Nat
  uniformLocation : GLState R → Nat → String → Int
  sizeBits : Nat

/-- The value of `sizeof(float)`. -/
def sizeofFloat : Nat := 4

/-- The value of `sizeof(int)`. -/
def sizeofInt : Nat := 4

/-- The value of `sizeof(vec2)`. -/
def sizeofVec2 : Nat := 2 * sizeofFloat

/-- The value of `sizeof(vec3)`. -/
def sizeofVec3 : Nat := 3 * sizeofFloat

/-- The value of `sizeof(vec4)`. -/
def sizeofVec4 : Nat := 4 * sizeofFloat

/-- Modelled from the spec: `sizeof(Vertex)` for the record of `Vertex.h`,
which is not among the sources: position, colour, texture coordinates and
normal, tightly packed. -/
def sizeofVertex : Nat := sizeofVec3 + sizeofVec4 + sizeofVec2 + sizeofVec3

/-- The expression `count * sizeof(T)` of lines 69 and 76: the `int` is
converted to `size_t`, the product is taken modulo `2 ^ w`, and the result is
passed on as the signed `GLsizeiptr` of the same width. -/
def byteSize (w : Nat) (count : Int) (size : Nat) : Int :=
  let u := ((count % 2 ^ w) * (size : Int)) % 2 ^ w
  if u < 2 ^ (w - 1) then u else u - 2 ^ w

section Graphics

variable {R : Type}

/-- Append a call to the log. -/
def GLState.emit (s : GLState R) (c : GLCall R) : GLState R :=
  { s with log := s.log ++ [c] }

/-- The call `glGenVertexArrays(1, &a)`: the name stored in `a` and the new context. -/
def glGenVertexArrays (B : Backend R) (s : GLState R) : Nat × GLState R :=
  let a := B.genVertexArray s
  (a, { s.emit (.glGenVertexArrays a) with vertexArrays := a :: s.vertexArrays })

/-- The call `glGenBuffers(1, &b)`: the name stored in `b` and the new context. -/
def glGenBuffers (B : Backend R) (s : GLState R) : Nat × GLState R :=
  let b := B.genBuffer s
  (b, { s.emit (.glGenBuffers b) with buffers := b :: s.buffers })

/-- The call `glCreateProgram()`: the name returned and the new context. -/
def glCreateProgram (B : Backend R) (s : GLState R) : Nat × GLState R :=
  let p := B.createProgram s
  (p, { s.emit (.glCreateProgram p) with programs := p :: s.programs })

/-- Modelled from the spec: `loadShaderFromFile` of `Shader.h`, which is not
among the sources: it reads and compiles one shader stage from a source
location and returns the handle of the new shader object. -/
def loadShaderFromFile (B : Backend R) (s : GLState R) (filename : String)
    (shaderType : ShaderType) : Nat × GLState R :=
  let sh := B.createShader s
  (sh, { s.emit (.loadShaderFromFile filename shaderType sh) with shaders := sh :: s.shaders })

/-- The call `glGetUniformLocation(program, name)`: the location and the new context. -/
def glGetUniformLocation (B : Backend R) (s : GLState R) (program : Nat) (name : String) :
    Int × GLState R :=
  let loc := B.uniformLocation s program name
  (loc, s.emit (.glGetUniformLocation program name loc))

/-- The call `glDeleteProgram(p)`. -/
def glDeleteProgram (s : GLState R) (p : Nat) : GLState R :=
  { s.emit (.glDeleteProgram p) with programs := s.programs.erase p }

/-- The call `glDeleteBuffers(1, &b)`. -/
def glDeleteBuffers (s : GLState R) (b : Nat) : GLState R :=
  { s.emit (.glDeleteBuffers b) with buffers := s.buffers.erase b }

/-- The call `glDeleteVertexArrays(1, &a)`. -/
def glDeleteVertexArrays (s : GLState R) (a : Nat) : GLState R :=
  { s.emit (.glDeleteVertexArrays a) with vertexArrays := s.vertexArrays.erase a }

/-- The call `glDeleteShader(sh)`. -/
def glDeleteShader (s : GLState R) (sh : Nat) : GLState R :=
  { s.emit (.glDeleteShader sh) with shaders := s.shaders.erase sh }

/-- The destructor `GameObject::~GameObject()`: the object as the destructor leaves it and
the new context. -/
def GameObject.destroy (s : GLState R) (g : GameObject R) : GameObject R × GLState R :=
  let s := glDeleteProgram s g.m_ShaderProgram
  let s := glDeleteBuffers s g.m_EBO
  let s := glDeleteBuffers s g.m_VBO
  let s := glDeleteVertexArrays s g.m_VAO
  ({ g with m_ChildGameObjects := [] }, s)

/-- The member function `GameObject::createBuffer(pVerts, numVerts, pindices,
numIndices)`. -/
def createBuffer (B : Backend R) (s : GLState R) (g : GameObject R)
    (pVerts : List (Vertex R)) (numVerts : Int) (pindices : List Int) (numIndices : Int) :
    GameObject R × GLState R :=
  let g := { g with m_NoOfVertices := numVerts }
  let g := { g with m_NoOfIndices := numIndices }
  let (vao, s) := glGenVertexArrays B s
  let g := { g with m_VAO := vao }
  let s := s.emit (.glBindVertexArray g.m_VAO)
  let (vbo, s) := glGenBuffers B s
  let g := { g with m_VBO := vbo }
  let s := s.emit (.glBindBuffer .GL_ARRAY_BUFFER g.m_VBO)
  let s := s.emit (.glBufferData .GL_ARRAY_BUFFER
    (byteSize B.sizeBits numVerts sizeofVertex) (.vertices pVerts))
  let (ebo, s) := glGenBuffers B s
  let g := { g with m_EBO := ebo }
  let s := s.emit (.glBindBuffer .GL_ELEMENT_ARRAY_BUFFER g.m_EBO)
  let s := s.emit (.glBufferData .GL_ELEMENT_ARRAY_BUFFER
    (byteSize B.sizeBits numIndices sizeofInt) (.indices pindices))
  let s := s.emit (.glEnableVertexAttribArray 0)
  let s := s.emit (.glVertexAttribPointer 0 3 sizeofVertex 0)
  let s := s.emit (.glEnableVertexAttribArray 1)
  let s := s.emit (.glVertexAttribPointer 1 4 sizeofVertex sizeofVec3)
  let s := s.emit (.glEnableVertexAttribArray 2)
  let s := s.emit (.glVertexAttribPointer 2 2 sizeofVertex (sizeofVec3 + sizeofVec4))
  let s := s.emit (.glEnableVertexAttribArray 3)
  let s := s.emit (.glVertexAttribPointer 3 3 sizeofVertex
    (sizeofVec3 + sizeofVec4 + sizeofVec2))
  (g, s)

/-- The member function `GameObject::loadShader(vsFilename, fsFilename)`. -/
def loadShader (B : Backend R) (s : GLState R) (g : GameObject R)
    (vsFilename fsFilename : String) : GameObject R × GLState R :=
  let (vertexShaderProgram, s) := loadShaderFromFile B s vsFilename .VERTEX_SHADER
  let s := s.emit (.checkForCompilerErrors vertexShaderProgram)
  let (fragmentShaderProgram, s) := loadShaderFromFile B s fsFilename .FRAGMENT_SHADER
  let s := s.emit (.checkForCompilerErrors fragmentShaderProgram)
  let (program, s) := glCreateProgram B s
  let g := { g with m_ShaderProgram := program }
  let s := s.emit (.glAttachShader g.m_ShaderProgram vertexShaderProgram)
  let s := s.emit (.glAttachShader g.m_ShaderProgram fragmentShaderProgram)
  let s := s.emit (.glBindAttribLocation g.m_ShaderProgram 0 "vertexPosition")
  let s := s.emit (.glBindAttribLocation g.m_ShaderProgram 1 "vertexColour")
  let s := s.emit (.glBindAttribLocation g.m_ShaderProgram 2 "vertexTexCoords")
  let s := s.emit (.glBindAttribLocation g.m_ShaderProgram 3 "vertexNormal")
  let s := s.emit (.glLinkProgram g.m_ShaderProgram)
  let s := s.emit (.checkForLinkErrors g.m_ShaderProgram)
  let s := glDeleteShader s vertexShaderProgram
  let s := glDeleteShader s fragmentShaderProgram
  (g, s)

/-- The member function `GameObject::setUpGameObjectMaterial(program)`; the `GLint`
location passed as the value of `glUniform1f` is converted to `float`. -/
def setUpGameObjectMaterial [IntCast R] (B : Backend R) (s : GLState R) (g : GameObject R)
    (currentShaderProgram : Nat) : GLState R :=
  let (ambientMaterialColourLocation, s) :=
    glGetUniformLocation B s currentShaderProgram "ambientMaterialColour"
  let s := s.emit (.glUniform4fv ambientMaterialColourLocation g.m_AmbientMaterial)
  let (diffuseLightMaterialLocation, s) :=
    glGetUniformLocation B s currentShaderProgram "diffuseMaterialColour"
  let s := s.emit (.glUniform4fv diffuseLightMaterialLocation g.m_DiffuseMaterial)
  let (specularLightMaterialLocation, s) :=
    glGetUniformLocation B s currentShaderProgram "specularMaterialColour"
  let s := s.emit (.glUniform4fv specularLightMaterialLocation g.m_SpecularMaterial)
  let (specularPowerLocation, s) :=
    glGetUniformLocation B s currentShaderProgram "specularPower"
  let s := s.emit (.glUniform1f specularPowerLocation (specularPowerLocation : R))
  s

end Graphics

/-! ## Sequences of operations on one object -/

section Operations

variable {R : Type} [Field R]

/-- The first `j` nodes of the chain `N` already carry their final world
matrices, and nothing but model matrices differs from the heap `h0` the call
started in. -/
def ChainDone (F : MathFns R) (h0 : Heap R) (N : List Nat) (j : Nat) (h : Heap R) : Prop :=
  SameShape h0 h ∧
    ∀ i n, i < j → N[i]? = some n → modelAt h n = some (chainWorld F h0 N i)

/-- The member functions defined in `GameObject.cpp`, with their arguments. -/
inductive Op (R : Type) where
  | update
  | createBuffer (pVerts : List (Vertex R)) (numVerts : Int) (pindices : List Int)
      (numIndices : Int)
  | loadShader (vsFilename fsFilename : String)
  | setUpGameObjectMaterial (currentShaderProgram : Nat)

/-- Is the operation a call of `createBuffer`? -/
def Op.isCreateBuffer : Op R → Bool
  | .createBuffer _ _ _ _ => true
  | _ => false

/-- Is the operation a call of `loadShader`? -/
def Op.isLoadShader : Op R → Bool
  | .loadShader _ _ => true
  | _ => false

/-- The program state: the objects and the graphics context. -/
structure World (R : Type) where
  heap : Heap R
  gl : GLState R

/-- One member-function call on the object at `self`. -/
def Op.apply (F : MathFns R) (B : Backend R) (fuel : Nat) (self : Nat) (w : World R) :
    Op R → Option (World R)
  | .update => (GameObjectSpec.update F fuel w.heap self).map (fun h => { w with heap := h })
  | .createBuffer pVerts numVerts pindices numIndices =>
    (w.heap[self]?).map (fun g =>
      let r := GameObjectSpec.createBuffer B w.gl g pVerts numVerts pindices numIndices
      { heap := w.heap.set self r.1, gl := r.2 })
  | .loadShader vsFilename fsFilename =>
    (w.heap[self]?).map (fun g =>
      let r := GameObjectSpec.loadShader B w.gl g vsFilename fsFilename
      { heap := w.heap.set self r.1, gl := r.2 })
  | .setUpGameObjectMaterial currentShaderProgram =>
    (w.heap[self]?).map (fun g =>
      { w with gl := GameObjectSpec.setUpGameObjectMaterial B w.gl g currentShaderProgram })

/-- A sequence of member-function calls on the object at `self`. -/
def runOps (F : MathFns R) (B : Backend R) (fuel : Nat) (self : Nat) (w : World R)
    (ops : List (Op R)) : Option (World R) :=
  ops.foldlM (fun w op => op.apply F B fuel self w) w

/-- One call of `createBuffer` and one of `loadShader`, in either order. -/
def setUpOnce (B : Backend R) (bufferFirst : Bool) (s : GLState R) (g : GameObject R)
    (pVerts : List (Vertex R)) (numVerts : Int) (pindices : List Int) (numIndices : Int)
    (vsFilename fsFilename : String) : GameObject R × GLState R :=
  if bufferFirst then
    let r := createBuffer B s g pVerts numVerts pindices numIndices
    loadShader B r.2 r.1 vsFilename fsFilename
  else
    let r := loadShader B s g vsFilename fsFilename
    createBuffer B r.2 r.1 pVerts numVerts pindices numIndices

/-- Every generating call of the driver succeeds, that is, hands out a
non-zero name. -/
def Backend.NonZero (B : Backend R) : Prop :=
  ∀ s, B.genBuffer s ≠ 0 ∧ B.genVertexArray s ≠ 0 ∧ B.createProgram s ≠ 0

/-- The driver never hands out a buffer name that is still in use. -/
def Backend.FreshBuffers (B : Backend R) : Prop :=
  ∀ s, B.genBuffer s ∉ s.buffers

/-- The three mesh handles are all zero. -/
def MeshUnset (g : GameObject R) : Prop :=
  g.m_VBO = 0 ∧ g.m_EBO = 0 ∧ g.m_VAO = 0

/-- The three mesh handles are all non-zero. -/
def MeshSet (g : GameObject R) : Prop :=
  g.m_VBO ≠ 0 ∧ g.m_EBO ≠ 0 ∧ g.m_VAO ≠ 0

/-- The point `p` as the homogeneous vector `(p, 1)`. -/
def Vec3.toPoint (p : Vec3 R) : Vec4 R := ⟨p.x, p.y, p.z, 1⟩

/-- The transform as the specification words it: the point obtained from `p`
by scaling it with `m_Scale`, then rotating it with the object's rotation
matrix, then moving it by `m_Position`. -/
def scaleRotateTranslate (F : MathFns R) (g : GameObject R) (p : Vec3 R) : Vec4 R :=
  let scaled : Vec3 R := ⟨p.x * g.m_Scale.x, p.y * g.m_Scale.y, p.z * g.m_Scale.z⟩
  let rotated := (rotationMatrix F g).mulVec scaled.toPoint
  ⟨rotated.x + g.m_Position.x, rotated.y + g.m_Position.y, rotated.z + g.m_Position.z, 1⟩

/-- The same three steps in the opposite order: the point obtained from `p`
by moving it by `m_Position`, then rotating it with the object's rotation
matrix, then scaling it with `m_Scale`. -/
def translateRotateScale (F : MathFns R) (g : GameObject R) (p : Vec3 R) : Vec4 R :=
  let moved : Vec3 R := ⟨p.x + g.m_Position.x, p.y + g.m_Position.y, p.z + g.m_Position.z⟩
  let rotated := (rotationMatrix F g).mulVec moved.toPoint
  ⟨rotated.x * g.m_Scale.x, rotated.y * g.m_Scale.y, rotated.z * g.m_Scale.z, 1⟩

end Operations

/-! ## Reading the call log -/

/-- The four kinds of graphics objects the source creates. -/
inductive ObjectKind where
  | buffer
  | vertexArray
  | program
  | shader
deriving DecidableEq

section Log

variable {R : Type}

/-- The object a call creates, when it creates one. -/
def GLCall.created : GLCall R → Option (ObjectKind × Nat)
  | .glGenVertexArrays a => some (.vertexArray, a)
  | .glGenBuffers b => some (.buffer, b)
  | .glCreateProgram p => some (.program, p)
  | .loadShaderFromFile _ _ sh => some (.shader, sh)
  | _ => none

/-- The object a call deletes, when it deletes one. -/
def GLCall.deleted : GLCall R → Option (ObjectKind × Nat)
  | .glDeleteVertexArrays a => some (.vertexArray, a)
  | .glDeleteBuffers b => some (.buffer, b)
  | .glDeleteProgram p => some (.program, p)
  | .glDeleteShader sh => some (.shader, sh)
  | _ => none

/-- The attribute slot a call configures, when it is `glVertexAttribPointer`:
slot, component count, stride, byte offset. -/
def GLCall.attribute : GLCall R → Option (Nat × Nat × Nat × Nat)
  | .glVertexAttribPointer index size stride pointer => some (index, size, stride, pointer)
  | _ => none

/-- The calls issued between the context `s0` and the later context `s`. -/
def callsSince (s0 s : GLState R) : List (GLCall R) :=
  s.log.drop s0.log.length

/-- The calls `createBuffer` issues when the driver hands out the names `a`
(vertex array), `v` and `e` (buffers) and a `size_t` has `w` bits. -/
def createBufferCalls (w : Nat) (a v e : Nat) (pVerts : List (Vertex R)) (numVerts : Int)
    (pindices : List Int) (numIndices : Int) : List (GLCall R) :=
  [.glGenVertexArrays a,
   .glBindVertexArray a,
   .glGenBuffers v,
   .glBindBuffer .GL_ARRAY_BUFFER v,
   .glBufferData .GL_ARRAY_BUFFER (byteSize w numVerts sizeofVertex) (.vertices pVerts),
   .glGenBuffers e,
   .glBindBuffer .GL_ELEMENT_ARRAY_BUFFER e,
   .glBufferData .GL_ELEMENT_ARRAY_BUFFER (byteSize w numIndices sizeofInt) (.indices pindices),
   .glEnableVertexAttribArray 0,
   .glVertexAttribPointer 0 3 sizeofVertex 0,
   .glEnableVertexAttribArray 1,
   .glVertexAttribPointer 1 4 sizeofVertex sizeofVec3,
   .glEnableVertexAttribArray 2,
   .glVertexAttribPointer 2 2 sizeofVertex (sizeofVec3 + sizeofVec4),
   .glEnableVertexAttribArray 3,
   .glVertexAttribPointer 3 3 sizeofVertex (sizeofVec3 + sizeofVec4 + sizeofVec2)]

/-- The calls `loadShader` issues when the two shader stages get the handles
`vsh` and `fsh` and the program gets the name `p`. -/
def loadShaderCalls (vsFilename fsFilename : String) (vsh fsh p : Nat) : List (GLCall R) :=
  [.loadShaderFromFile vsFilename .VERTEX_SHADER vsh,
   .checkForCompilerErrors vsh,
   .loadShaderFromFile fsFilename .FRAGMENT_SHADER fsh,
   .checkForCompilerErrors fsh,
   .glCreateProgram p,
   .glAttachShader p vsh,
   .glAttachShader p fsh,
   .glBindAttribLocation p 0 "vertexPosition",
   .glBindAttribLocation p 1 "vertexColour",
   .glBindAttribLocation p 2 "vertexTexCoords",
   .glBindAttribLocation p 3 "vertexNormal",
   .glLinkProgram p,
   .checkForLinkErrors p,
   .glDeleteShader vsh,
   .glDeleteShader fsh]

/-- The bottom row of the matrix is `(0, 0, 0, 1)`. -/
def Mat4.IsAffine [Zero R] [One R] (m : Mat4 R) : Prop :=
  m.c0.w = 0 ∧ m.c1.w = 0 ∧ m.c2.w = 0 ∧ m.c3.w = 1

end Log

section Lone

variable {R : Type}

/-- The world holds a single object, without parent and without children,
whose mesh handles are set exactly when `cb` holds and whose shader handle is
set exactly when `ls` holds. -/
def LoneState (w : World R) (cb ls : Bool) : Prop :=
  ∃ g, w.heap = [g] ∧ g.m_ParentGameObject = none ∧ g.m_ChildGameObjects = [] ∧
    (cb = true → MeshSet g) ∧ (cb = false → MeshUnset g) ∧
    (ls = true → g.m_ShaderProgram ≠ 0) ∧ (ls = false → g.m_ShaderProgram = 0)

end Lone

/-! ## Concrete data for evaluating the model -/

/-- Rational stand-ins for the scalar functions, so that the model can be
run: the argument `t` of `cos` and `sin` is read as the tangent of half the
angle, which gives an exact rotation for every rational `t` and the identity
for `t = 0`; `inversesqrt` is exact at 1, the squared length of a coordinate
axis, which is the only argument `update` passes to it. -/
def ratFns : MathFns ℚ where
  cos t := (1 - t * t) / (1 + t * t)
  sin t := 2 * t / (1 + t * t)
  inversesqrt x := 2 / (1 + x)

/-- A driver that numbers its objects upwards from the largest name in use,
on a platform with a 64-bit `size_t`. -/
def countingBackend : Backend ℚ where
  genBuffer s := s.buffers.foldr max 0 + 1
  genVertexArray s := s.vertexArrays.foldr max 0 + 1
  createProgram s := s.programs.foldr max 0 + 1
  createShader s := s.shaders.foldr max 0 + 1
  uniformLocation _ _ name :=
    if name = "ambientMaterialColour" then 0
    else if name = "diffuseMaterialColour" then 1
    else if name = "specularMaterialColour" then 2
    else if name = "specularPower" then 3
    else -1
  sizeBits := 64

/-- Three vertices of a triangle in the plane `z = 0`. -/
def triangleVerts : List (Vertex ℚ) :=
  [⟨⟨0, 0, 0⟩, ⟨1, 0, 0, 1⟩, ⟨0, 0⟩, ⟨0, 0, 1⟩⟩,
   ⟨⟨1, 0, 0⟩, ⟨0, 1, 0, 1⟩, ⟨1, 0⟩, ⟨0, 0, 1⟩⟩,
   ⟨⟨0, 1, 0⟩, ⟨0, 0, 1, 1⟩, ⟨0, 1⟩, ⟨0, 0, 1⟩⟩]

/-- The indices of the one triangle of `triangleVerts`. -/
def triangleIndices : List Int := [0, 1, 2]

/-- A graphics context in which nothing has happened yet. -/
def emptyGL : GLState ℚ := ⟨[], [], [], [], []⟩

/-- A root object with a stale model matrix and one child. -/
def nodeA : GameObject ℚ :=
  { (GameObject.new : GameObject ℚ) with
    m_ModelMatrix := mat4 7
    m_Position := ⟨1, 0, 0⟩
    m_Scale := ⟨2, 2, 2⟩
    m_ChildGameObjects := [1] }

/-- A child of `nodeA` with a stale model matrix and one child. -/
def nodeB : GameObject ℚ :=
  { (GameObject.new : GameObject ℚ) with
    m_ModelMatrix := mat4 5
    m_Position := ⟨0, 3, 0⟩
    m_Rotation := ⟨0, 0, 1⟩
    m_ParentGameObject := some 0
    m_ChildGameObjects := [2] }

/-- A child of `nodeB`. -/
def nodeC : GameObject ℚ :=
  { (GameObject.new : GameObject ℚ) with
    m_ModelMatrix := mat4 3
    m_Position := ⟨0, 0, 4⟩
    m_Scale := ⟨1, 2, 3⟩
    m_ParentGameObject := some 1 }

/-- The chain `nodeA -> nodeB -> nodeC`. -/
def chainHeap : Heap ℚ := [nodeA, nodeB, nodeC]

/-- A rank for `chainHeap`: the depth below which nothing hangs. -/
def chainRank (n : Nat) : Nat := 2 - n

/-! ## Algebra of `mat4` -/

section Algebra

variable {R : Type} [Field R]

theorem Mat4.mul_def (a b : Mat4 R) : a * b = Mat4.mul a b := rfl

theorem Mat4.one_def : (1 : Mat4 R) = mat4 1 := rfl

theorem Mat4.mulVec_mul (a b : Mat4 R) (v : Vec4 R) :
    (a * b).mulVec v = a.mulVec (b.mulVec v) := by
  simp only [Mat4.mul_def, Mat4.mul, Mat4.mulCol, Mat4.mulVec, Vec4.add, Vec4.smul]
  ext <;> simp only [] <;> ring

theorem newModelMatrix_eq (F : MathFns R) (g : GameObject R) (m : Mat4 R) :
    newModelMatrix F g m = localMatrix F g * m := rfl

theorem localMatrix_skeleton (F : MathFns R) (g g0 : GameObject R)
    (hs : skeleton g = skeleton g0) : localMatrix F g = localMatrix F g0 := by
  have h1 : g.m_Position = g0.m_Position :=
    (congrArg (fun q : GameObject R => q.m_Position) hs : _)
  have h2 : g.m_Rotation = g0.m_Rotation :=
    (congrArg (fun q : GameObject R => q.m_Rotation) hs : _)
  have h3 : g.m_Scale = g0.m_Scale :=
    (congrArg (fun q : GameObject R => q.m_Scale) hs : _)
  simp only [localMatrix, scaleMatrix, rotationMatrix, rotationX, rotationY, rotationZ,
    translationMatrix, h1, h2, h3]

theorem chainWorld_zero (F : MathFns R) (h : Heap R) (N : List Nat) (n : Nat)
    (hn : N[0]? = some n) : chainWorld F h N 0 = localAt F h n := by
  cases N with
  | nil => simp at hn
  | cons a t =>
    simp at hn
    simp [chainWorld, hn]

theorem chainWorld_succ (F : MathFns R) (h : Heap R) (N : List Nat) (i n : Nat)
    (hn : N[i + 1]? = some n) :
    chainWorld F h N (i + 1) = localAt F h n * chainWorld F h N i := by
  unfold chainWorld
  rw [List.take_succ (n := i + 1), hn]
  simp

end Algebra

/-! ## Basic facts about heaps and chains -/

section HeapBasics

variable {R : Type}

theorem modelAt_set_self (h : Heap R) (n : Nat) (g g' : GameObject R)
    (hg : h[n]? = some g) : modelAt (h.set n g') n = some g'.m_ModelMatrix := by
  have hlt : n < h.length := (List.getElem?_eq_some.mp hg).1
  simp [modelAt, GameObject.getModelMatrix, List.getElem?_set_self hlt]

theorem modelAt_set_ne (h : Heap R) (n k : Nat) (g' : GameObject R) (hne : n ≠ k) :
    modelAt (h.set n g') k = modelAt h k := by
  simp [modelAt, List.getElem?_set_ne hne]

theorem isChain_singleton (h : Heap R) (n : Nat) (g : GameObject R) (hg : h[n]? = some g)
    (hp : g.m_ParentGameObject = none) : IsChain h [n] := by
  intro i m hi
  cases i with
  | zero =>
    simp at hi
    subst hi
    exact ⟨g, hg, hp, fun c hc => by simp at hc⟩
  | succ k => simp at hi

theorem isChain_pair (h : Heap R) (root child : Nat) (gr gc : GameObject R)
    (hr : h[root]? = some gr) (hrp : gr.m_ParentGameObject = none)
    (hrc : child ∈ gr.m_ChildGameObjects) (hc : h[child]? = some gc)
    (hcp : gc.m_ParentGameObject = some root) : IsChain h [root, child] := by
  intro i m hi
  match i with
  | 0 =>
    simp at hi
    subst hi
    exact ⟨gr, hr, hrp, fun c hc' => by simp at hc'; exact hc' ▸ hrc⟩
  | 1 =>
    simp at hi
    subst hi
    exact ⟨gc, hc, by simpa using hcp, fun c hc' => by simp at hc'⟩
  | k + 2 => simp at hi

end HeapBasics

/-! ## How `update` walks the heap -/

section Walk

variable {R : Type} [Field R]

theorem foldlM_invariant {α β : Type} (f : β → α → Option β) (P : β → Prop) :
    ∀ (cs : List α), (∀ b a b', a ∈ cs → P b → f b a = some b' → P b') →
      ∀ b b', P b → cs.foldlM f b = some b' → P b'
  | [], _, b, b', hb, h => by
    simp at h
    exact h ▸ hb
  | c :: cs, hf, b, b', hb, h => by
    simp only [List.foldlM_cons] at h
    cases hc : f b c with
    | none => simp [hc] at h
    | some b1 =>
      simp only [hc, Option.bind_eq_bind, Option.some_bind] at h
      exact foldlM_invariant f P cs
        (fun x a x' ha hx hxa => hf x a x' (List.mem_cons_of_mem _ ha) hx hxa)
        b1 b' (hf b c b1 (List.mem_cons_self _ _) hb hc) h

theorem update_succ (F : MathFns R) (fuel : Nat) (h : Heap R) (self : Nat)
    (g : GameObject R) (m : Mat4 R) (hg : h[self]? = some g)
    (hm : parentModel h g = some m) :
    update F (fuel + 1) h self =
      g.m_ChildGameObjects.foldlM (fun hh child => update F fuel hh child)
        (h.set self { g with m_ModelMatrix := newModelMatrix F g m }) := by
  simp only [update, hg, hm]

theorem update_some (F : MathFns R) (fuel : Nat) (h h' : Heap R) (self : Nat)
    (hu : update F (fuel + 1) h self = some h') :
    ∃ g m, h[self]? = some g ∧ parentModel h g = some m ∧
      g.m_ChildGameObjects.foldlM (fun hh child => update F fuel hh child)
        (h.set self { g with m_ModelMatrix := newModelMatrix F g m }) = some h' := by
  cases hg : h[self]? with
  | none => simp [update, hg] at hu
  | some g =>
    cases hm : parentModel h g with
    | none => simp [update, hg, hm] at hu
    | some m =>
      rw [update_succ F fuel h self g m hg hm] at hu
      exact ⟨g, m, rfl, hm, hu⟩

/-- A property of the heap that every single write of `update` keeps is kept
by the whole recursive call. -/
theorem update_invariant (F : MathFns R) (P : Heap R → Prop)
    (step : ∀ h self g m, P h → h[self]? = some g → parentModel h g = some m →
      P (h.set self { g with m_ModelMatrix := newModelMatrix F g m })) :
    ∀ fuel h self h', P h → update F fuel h self = some h' → P h'
  | 0, _, _, _, _, hu => by simp [update] at hu
  | fuel + 1, h, self, h', hP, hu => by
    obtain ⟨g, m, hg, hm, hfold⟩ := update_some F fuel h h' self hu
    exact foldlM_invariant _ P g.m_ChildGameObjects
      (fun b a b' _ hb hba => update_invariant F P step fuel b a b' hb hba)
      _ h' (step h self g m hP hg hm) hfold

theorem SameShape.refl (h : Heap R) : SameShape h h := fun _ => rfl

theorem SameShape.length_eq {h h' : Heap R} (hs : SameShape h h') (n : Nat) :
    n < h'.length ↔ n < h.length := by
  have := hs n
  constructor
  · intro hn
    by_contra hc
    rw [List.getElem?_eq_none (Nat.le_of_not_lt hc), List.getElem?_eq_getElem hn] at this
    simp at this
  · intro hn
    by_contra hc
    rw [List.getElem?_eq_none (Nat.le_of_not_lt hc), List.getElem?_eq_getElem hn] at this
    simp at this

theorem SameShape.lookup {h h' : Heap R} (hs : SameShape h h') {n : Nat}
    {g : GameObject R} (hg : h'[n]? = some g) :
    ∃ g0, h[n]? = some g0 ∧ skeleton g = skeleton g0 := by
  have := hs n
  rw [hg] at this
  cases h0 : h[n]? with
  | none => simp [h0] at this
  | some g0 =>
    rw [h0] at this
    simp only [Option.map_some', Option.some.injEq] at this
    exact ⟨g0, rfl, this⟩

theorem SameShape.set {h h' : Heap R} (hs : SameShape h h') (self : Nat)
    (g : GameObject R) (m : Mat4 R) (hg : h'[self]? = some g) :
    SameShape h (h'.set self { g with m_ModelMatrix := m }) := by
  intro n
  by_cases hn : self = n
  · subst hn
    have hlt : self < h'.length := (List.getElem?_eq_some.mp hg).1
    rw [List.getElem?_set_self hlt, ← hs self, hg]
    rfl
  · rw [List.getElem?_set_ne hn]
    exact hs n

theorem update_sameShape (F : MathFns R) (h0 : Heap R) (fuel : Nat) (h : Heap R)
    (self : Nat) (h' : Heap R) (hs : SameShape h0 h)
    (hu : update F fuel h self = some h') : SameShape h0 h' :=
  update_invariant F (SameShape h0)
    (fun _ self g _ hP hg _ => SameShape.set hP self g _ hg) fuel h self h' hs hu

theorem Hierarchy.of_sameShape {rank : Nat → Nat} {h h' : Heap R}
    (hh : Hierarchy rank h) (hs : SameShape h h') : Hierarchy rank h' := by
  intro n g hg
  obtain ⟨g0, hg0, hsk⟩ := hs.lookup hg
  have hp : g.m_ParentGameObject = g0.m_ParentGameObject :=
    (congrArg (fun q : GameObject R => q.m_ParentGameObject) hsk : _)
  have hc : g.m_ChildGameObjects = g0.m_ChildGameObjects :=
    (congrArg (fun q : GameObject R => q.m_ChildGameObjects) hsk : _)
  obtain ⟨h1, h2⟩ := hh n g0 hg0
  refine ⟨fun p hpp => ?_, fun c hcc => ?_⟩
  · exact (hs.length_eq p).mpr (h1 p (hp ▸ hpp))
  · obtain ⟨h3, h4⟩ := h2 c (hc ▸ hcc)
    exact ⟨(hs.length_eq c).mpr h3, h4⟩

theorem foldlM_total {α β : Type} (f : β → α → Option β) (P : β → Prop) :
    ∀ (cs : List α), (∀ b a, a ∈ cs → P b → ∃ b', f b a = some b' ∧ P b') →
      ∀ b, P b → ∃ b', cs.foldlM f b = some b' ∧ P b'
  | [], _, b, hb => ⟨b, rfl, hb⟩
  | c :: cs, hf, b, hb => by
    obtain ⟨b1, h1, hP1⟩ := hf b c (List.mem_cons_self _ _) hb
    obtain ⟨b2, h2, hP2⟩ := foldlM_total f P cs
      (fun x a ha hx => hf x a (List.mem_cons_of_mem _ ha) hx) b1 hP1
    refine ⟨b2, ?_, hP2⟩
    simp only [List.foldlM_cons, h1, Option.bind_eq_bind, Option.some_bind, h2]

/-- In an acyclic hierarchy `update` finishes as soon as the fuel exceeds the
rank of the object it is called on. -/
theorem update_total (F : MathFns R) (rank : Nat → Nat) :
    ∀ fuel (h : Heap R) self, Hierarchy rank h → self < h.length → rank self < fuel →
      ∃ h', update F fuel h self = some h' ∧ SameShape h h'
  | 0, _, _, _, _, hr => absurd hr (Nat.not_lt_zero _)
  | fuel + 1, h, self, hh, hlt, hr => by
    have hg : h[self]? = some h[self] := List.getElem?_eq_getElem hlt
    obtain ⟨hpar, hch⟩ := hh self _ hg
    have hm : ∃ m, parentModel h h[self] = some m := by
      unfold parentModel
      cases hp : (h[self]).m_ParentGameObject with
      | none => exact ⟨_, rfl⟩
      | some p =>
        have := hpar p hp
        simp [List.getElem?_eq_getElem this]
    obtain ⟨m, hm⟩ := hm
    rw [update_succ F fuel h self _ m hg hm]
    have hs1 : SameShape h (h.set self { h[self] with m_ModelMatrix := newModelMatrix F h[self] m }) :=
      SameShape.set (SameShape.refl h) self _ _ hg
    apply foldlM_total _ (SameShape h) _ _ _ hs1
    intro b c hc hb
    obtain ⟨hc1, hc2⟩ := hch c hc
    obtain ⟨b', hb', hs'⟩ := update_total F rank fuel b c (hh.of_sameShape hb)
      ((hb.length_eq c).mpr hc1) (by omega)
    exact ⟨b', hb', update_sameShape F h fuel b c b' hb hb'⟩

/-- Writing the node `N[i]` while its predecessors are right makes it right. -/
theorem chain_write (F : MathFns R) (h0 : Heap R) (N : List Nat) (hN : IsChain h0 N)
    (j : Nat) (h : Heap R) (hd : ChainDone F h0 N j h) (i n : Nat) (hij : i ≤ j)
    (hi : N[i]? = some n) (g : GameObject R) (m : Mat4 R) (hg : h[n]? = some g)
    (hm : parentModel h g = some m) :
    newModelMatrix F g m = chainWorld F h0 N i := by
  obtain ⟨g0, hg0, hpar, -⟩ := hN i n hi
  obtain ⟨g1, hg1, hsk⟩ := hd.1.lookup hg
  rw [hg0] at hg1
  cases hg1
  have hp : g.m_ParentGameObject = g0.m_ParentGameObject :=
    (congrArg (fun q : GameObject R => q.m_ParentGameObject) hsk : _)
  have hloc : localMatrix F g = localAt F h0 n := by
    rw [localMatrix_skeleton F g g0 hsk]
    simp [localAt, hg0]
  rw [newModelMatrix_eq, hloc]
  cases i with
  | zero =>
    simp only [hp, hpar, parentModel, Option.some.injEq] at hm
    rw [chainWorld_zero F h0 N n hi, ← hm, ← Mat4.one_def, mul_one]
  | succ k =>
    simp only at hpar
    have hk : k < N.length := by
      have := (List.getElem?_eq_some.mp hi).1
      omega
    have hNk : N[k]? = some N[k] := List.getElem?_eq_getElem hk
    have hpm := hd.2 k N[k] (by omega) hNk
    rw [hNk] at hpar
    simp only [hp, hpar, parentModel] at hm
    rw [show Option.map GameObject.getModelMatrix (h[N[k]]?) = modelAt h N[k] from rfl,
      hpm] at hm
    cases hm
    rw [chainWorld_succ F h0 N k n hi]

/-- A write of `update` (to any object) keeps the finished part of the chain
finished. -/
theorem chainDone_write (F : MathFns R) (h0 : Heap R) (N : List Nat) (hN : IsChain h0 N)
    (j : Nat) (h : Heap R) (hd : ChainDone F h0 N j h) (self : Nat) (g : GameObject R)
    (m : Mat4 R) (hg : h[self]? = some g) (hm : parentModel h g = some m) :
    ChainDone F h0 N j (h.set self { g with m_ModelMatrix := newModelMatrix F g m }) := by
  refine ⟨SameShape.set hd.1 self g _ hg, fun i n hij hi => ?_⟩
  by_cases hn : self = n
  · subst hn
    rw [modelAt_set_self h self g _ hg]
    exact congrArg some (chain_write F h0 N hN j h hd i self (Nat.le_of_lt hij) hi g m hg hm)
  · rw [modelAt_set_ne h self n _ hn]
    exact hd.2 i n hij hi

/-- The write to the node `N[j]` extends the finished part by one. -/
theorem chainDone_advance (F : MathFns R) (h0 : Heap R) (N : List Nat) (hN : IsChain h0 N)
    (j : Nat) (h : Heap R) (hd : ChainDone F h0 N j h) (self : Nat) (hj : N[j]? = some self)
    (g : GameObject R) (m : Mat4 R) (hg : h[self]? = some g)
    (hm : parentModel h g = some m) :
    ChainDone F h0 N (j + 1)
      (h.set self { g with m_ModelMatrix := newModelMatrix F g m }) := by
  refine ⟨SameShape.set hd.1 self g _ hg, fun i n hij hi => ?_⟩
  by_cases hn : self = n
  · subst hn
    rw [modelAt_set_self h self g _ hg]
    exact congrArg some (chain_write F h0 N hN j h hd i self (Nat.le_of_lt_succ hij) hi g m hg hm)
  · rw [modelAt_set_ne h self n _ hn]
    have hlt : i < j := by
      rcases Nat.lt_succ_iff_lt_or_eq.mp hij with h1 | h1
      · exact h1
      · subst h1
        rw [hj] at hi
        exact absurd (Option.some.inj hi) hn
    exact hd.2 i n hlt hi

theorem chainDone_update (F : MathFns R) (h0 : Heap R) (N : List Nat) (hN : IsChain h0 N)
    (j fuel : Nat) (h : Heap R) (self : Nat) (h' : Heap R) (hd : ChainDone F h0 N j h)
    (hu : update F fuel h self = some h') : ChainDone F h0 N j h' :=
  update_invariant F (ChainDone F h0 N j)
    (fun hh s g m hP hg hm => chainDone_write F h0 N hN j hh hP s g m hg hm)
    fuel h self h' hd hu

theorem chainDone_of_le (F : MathFns R) (h0 : Heap R) (N : List Nat) (j : Nat)
    (h : Heap R) (hd : ChainDone F h0 N j h) (hj : N.length ≤ j) (k : Nat) :
    ChainDone F h0 N k h :=
  ⟨hd.1, fun i n _ hi => hd.2 i n
    (Nat.lt_of_lt_of_le (List.getElem?_eq_some.mp hi).1 hj) hi⟩

/-- Calling `update` on `N[j]` once `N[0..j-1]` are right leaves the whole
chain right. -/
theorem chainDone_finish (F : MathFns R) (h0 : Heap R) (N : List Nat) (hN : IsChain h0 N) :
    ∀ fuel j (h : Heap R) self h', ChainDone F h0 N j h → N[j]? = some self →
      update F fuel h self = some h' → ChainDone F h0 N N.length h'
  | 0, _, _, _, _, _, _, hu => by simp [update] at hu
  | fuel + 1, j, h, self, h', hd, hj, hu => by
    obtain ⟨g, m, hg, hm, hfold⟩ := update_some F fuel h h' self hu
    have h1 := chainDone_advance F h0 N hN j h hd self hj g m hg hm
    -- children of `self` as seen from the chain
    obtain ⟨g0, hg0, -, hchild⟩ := hN j self hj
    obtain ⟨g1, hg1, hsk⟩ := hd.1.lookup hg
    rw [hg0] at hg1
    cases hg1
    have hc : g.m_ChildGameObjects = g0.m_ChildGameObjects :=
      (congrArg (fun q : GameObject R => q.m_ChildGameObjects) hsk : _)
    have key : ∀ (cs : List Nat) (hh hres : Heap R), ChainDone F h0 N (j + 1) hh →
        (ChainDone F h0 N N.length hh ∨ ∃ c, N[j + 1]? = some c ∧ c ∈ cs) →
        cs.foldlM (fun hh child => update F fuel hh child) hh = some hres →
        ChainDone F h0 N N.length hres := by
      intro cs
      induction cs with
      | nil =>
        intro hh hres _ hor hf
        simp at hf
        rcases hor with hdone | ⟨c, _, hcm⟩
        · exact hf ▸ hdone
        · simp at hcm
      | cons c cs ih =>
        intro hh hres hd1 hor hf
        simp only [List.foldlM_cons] at hf
        cases hc1 : update F fuel hh c with
        | none => simp [hc1] at hf
        | some hh1 =>
          simp only [hc1, Option.bind_eq_bind, Option.some_bind] at hf
          have hd1' := chainDone_update F h0 N hN (j + 1) fuel hh c hh1 hd1 hc1
          refine ih hh1 hres hd1' ?_ hf
          rcases hor with hdone | ⟨c', hc', hmem⟩
          · exact Or.inl (chainDone_update F h0 N hN N.length fuel hh c hh1 hdone hc1)
          · rcases List.mem_cons.mp hmem with heq | hin
            · subst heq
              exact Or.inl (chainDone_finish F h0 N hN fuel (j + 1) hh c' hh1 hd1 hc' hc1)
            · exact Or.inr ⟨c', hc', hin⟩
    refine key g.m_ChildGameObjects _ h' h1 ?_ hfold
    cases hnext : N[j + 1]? with
    | none =>
      exact Or.inl (chainDone_of_le F h0 N (j + 1) _ h1
        (List.getElem?_eq_none_iff.mp hnext) N.length)
    | some c => exact Or.inr ⟨c, rfl, hc ▸ hchild c hnext⟩

/-- The whole content of a call of `update` on the head of a chain: in an
acyclic hierarchy it finishes, and every node of the chain ends with the
product of the local matrices from itself up to the head. -/
theorem update_chain_aux (F : MathFns R) (rank : Nat → Nat) (h : Heap R) (N : List Nat)
    (root : Nat) (hH : Hierarchy rank h) (hN : IsChain h N) (hroot : N[0]? = some root)
    (fuel : Nat) (hfuel : rank root < fuel) :
    ∃ h', update F fuel h root = some h' ∧
      ∀ i n, N[i]? = some n → modelAt h' n = some (chainWorld F h N i) := by
  obtain ⟨g, hg, -, -⟩ := hN 0 root hroot
  have hlt : root < h.length := (List.getElem?_eq_some.mp hg).1
  obtain ⟨h', hu, -⟩ := update_total F rank fuel h root hH hlt hfuel
  have h0 : ChainDone F h N 0 h := ⟨SameShape.refl h, fun i n hi _ => absurd hi (Nat.not_lt_zero i)⟩
  have hd := chainDone_finish F h N hN fuel 0 h root h' h0 hroot hu
  exact ⟨h', hu, fun i n hi => hd.2 i n (List.getElem?_eq_some.mp hi).1 hi⟩

theorem localMatrix_flat (F : MathFns R) (g : GameObject R) :
    localMatrix F g =
      scaleMatrix g * rotationX F g * rotationY F g * rotationZ F g * translationMatrix g := by
  simp only [localMatrix, rotationMatrix, mul_assoc]

theorem localAt_of_lookup (F : MathFns R) (h : Heap R) (n : Nat) (g : GameObject R)
    (hg : h[n]? = some g) : localAt F h n = localMatrix F g := by
  simp [localAt, hg]

end Walk

/-! ## The claims about `update` -/

section UpdateClaims

variable {R : Type} [Field R]

/-- C1: `update()` called on an object without parent, in an acyclic
hierarchy and whatever the model matrices were before, finishes and leaves the
object with the model matrix `Scale * Rx * Ry * Rz * Translation`, built from
its own `m_Scale`, `m_Rotation` and `m_Position`. -/
theorem update_parentless_model (F : MathFns R) (rank : Nat → Nat) (h : Heap R) (n : Nat)
    (g : GameObject R) (hH : Hierarchy rank h) (hg : h[n]? = some g)
    (hp : g.m_ParentGameObject = none) (fuel : Nat) (hfuel : rank n < fuel) :
    ∃ h', update F fuel h n = some h' ∧
      modelAt h' n = some (scale (mat4 1) g.m_Scale
        * rotate F (mat4 1) g.m_Rotation.x ⟨1, 0, 0⟩
        * rotate F (mat4 1) g.m_Rotation.y ⟨0, 1, 0⟩
        * rotate F (mat4 1) g.m_Rotation.z ⟨0, 0, 1⟩
        * translate (mat4 1) g.m_Position) := by
  obtain ⟨h', hu, hw⟩ := update_chain_aux F rank h [n] n hH
    (isChain_singleton h n g hg hp) rfl fuel hfuel
  refine ⟨h', hu, ?_⟩
  rw [hw 0 n rfl, chainWorld_zero F h [n] n rfl, localAt_of_lookup F h n g hg,
    localMatrix_flat]
  rfl

/-- C2: in an acyclic hierarchy with a parentless root that lists `child`,
whose parent pointer is the root, `root.update()` finishes, writes the root's
matrix from the root's own fields, and leaves the child with
`(childScale * childRotation) * childTranslation * rootWorldMatrix`, where
`rootWorldMatrix` is the matrix the root holds after the call. -/
theorem update_child_model (F : MathFns R) (rank : Nat → Nat) (h : Heap R)
    (root child : Nat) (gr gc : GameObject R) (hH : Hierarchy rank h)
    (hr : h[root]? = some gr) (hrp : gr.m_ParentGameObject = none)
    (hrc : child ∈ gr.m_ChildGameObjects) (hc : h[child]? = some gc)
    (hcp : gc.m_ParentGameObject = some root) (fuel : Nat) (hfuel : rank root < fuel) :
    ∃ h' rootWorld, update F fuel h root = some h' ∧
      modelAt h' root = some rootWorld ∧
      rootWorld = scaleMatrix gr * rotationMatrix F gr * translationMatrix gr ∧
      modelAt h' child =
        some ((scaleMatrix gc * rotationMatrix F gc) * translationMatrix gc * rootWorld) := by
  obtain ⟨h', hu, hw⟩ := update_chain_aux F rank h [root, child] root hH
    (isChain_pair h root child gr gc hr hrp hrc hc hcp) rfl fuel hfuel
  refine ⟨h', _, hu, hw 0 root rfl, ?_, ?_⟩
  · rw [chainWorld_zero F h [root, child] root rfl, localAt_of_lookup F h root gr hr]
    rfl
  · rw [hw 1 child rfl, chainWorld_succ F h [root, child] 0 child rfl,
      localAt_of_lookup F h child gc hc]
    rfl

/-- C3: for a chain `N0 -> N1 -> ... -> Nk` in an acyclic hierarchy, whatever
the model matrices were before, `N0.update()` finishes and every `Ni` ends
with `local(Ni) * local(Ni-1) * ... * local(N0)`; each node's matrix is its
local matrix times the matrix its parent holds after the call; and `local` is
`Scale * Rx * Ry * Rz * Translation` of the node. -/
theorem update_chain_world (F : MathFns R) (rank : Nat → Nat) (h : Heap R) (N : List Nat)
    (root : Nat) (hH : Hierarchy rank h) (hN : IsChain h N) (hroot : N[0]? = some root)
    (fuel : Nat) (hfuel : rank root < fuel) :
    ∃ h', update F fuel h root = some h' ∧
      (∀ (i n : Nat), N[i]? = some n →
        modelAt h' n = some ((((N.take (i + 1)).reverse).map (localAt F h)).prod)) ∧
      (∀ (i p c : Nat) (w : Mat4 R), N[i]? = some p → N[i + 1]? = some c →
        modelAt h' p = some w →
        modelAt h' c = some (localAt F h c * w)) ∧
      (∀ (i n : Nat) (g : GameObject R), N[i]? = some n → h[n]? = some g →
        localAt F h n = scaleMatrix g * rotationX F g * rotationY F g * rotationZ F g
          * translationMatrix g) := by
  obtain ⟨h', hu, hw⟩ := update_chain_aux F rank h N root hH hN hroot fuel hfuel
  refine ⟨h', hu, hw, ?_, ?_⟩
  · intro i p c w hp hc hpw
    rw [hw i p hp] at hpw
    cases hpw
    rw [hw (i + 1) c hc, chainWorld_succ F h N i c hc]
  · intro i n g _ hg
    rw [localAt_of_lookup F h n g hg, localMatrix_flat]

end UpdateClaims

/-! ## Facts about the concrete data -/

section Rotations

variable {R : Type} [Field R]

theorem normalize_axisX (F : MathFns R) (h1 : F.inversesqrt 1 = 1) :
    normalize F ⟨1, 0, 0⟩ = ⟨1, 0, 0⟩ := by
  simp [normalize, Vec3.dot, Vec3.smul, h1]

theorem normalize_axisY (F : MathFns R) (h1 : F.inversesqrt 1 = 1) :
    normalize F ⟨0, 1, 0⟩ = ⟨0, 1, 0⟩ := by
  simp [normalize, Vec3.dot, Vec3.smul, h1]

theorem normalize_axisZ (F : MathFns R) (h1 : F.inversesqrt 1 = 1) :
    normalize F ⟨0, 0, 1⟩ = ⟨0, 0, 1⟩ := by
  simp [normalize, Vec3.dot, Vec3.smul, h1]

/-- With an exact `inversesqrt`, `rotate` about the X axis is the usual
rotation matrix. -/
theorem rotate_axisX (F : MathFns R) (h1 : F.inversesqrt 1 = 1) (a : R) :
    rotate F (mat4 1) a ⟨1, 0, 0⟩ =
      ⟨⟨1, 0, 0, 0⟩, ⟨0, F.cos a, F.sin a, 0⟩, ⟨0, -F.sin a, F.cos a, 0⟩, ⟨0, 0, 0, 1⟩⟩ := by
  unfold rotate
  rw [normalize_axisX F h1]
  simp [mat4, Vec4.add, Vec4.smul, Vec3.lsmul]

/-- With an exact `inversesqrt`, `rotate` about the Y axis is the usual
rotation matrix. -/
theorem rotate_axisY (F : MathFns R) (h1 : F.inversesqrt 1 = 1) (a : R) :
    rotate F (mat4 1) a ⟨0, 1, 0⟩ =
      ⟨⟨F.cos a, 0, -F.sin a, 0⟩, ⟨0, 1, 0, 0⟩, ⟨F.sin a, 0, F.cos a, 0⟩, ⟨0, 0, 0, 1⟩⟩ := by
  unfold rotate
  rw [normalize_axisY F h1]
  simp [mat4, Vec4.add, Vec4.smul, Vec3.lsmul]

/-- With an exact `inversesqrt`, `rotate` about the Z axis is the usual
rotation matrix. -/
theorem rotate_axisZ (F : MathFns R) (h1 : F.inversesqrt 1 = 1) (a : R) :
    rotate F (mat4 1) a ⟨0, 0, 1⟩ =
      ⟨⟨F.cos a, F.sin a, 0, 0⟩, ⟨-F.sin a, F.cos a, 0, 0⟩, ⟨0, 0, 1, 0⟩, ⟨0, 0, 0, 1⟩⟩ := by
  unfold rotate
  rw [normalize_axisZ F h1]
  simp [mat4, Vec4.add, Vec4.smul, Vec3.lsmul]

theorem rotate_isAffine (F : MathFns R) (a : R) (v : Vec3 R) :
    (rotate F (mat4 1) a v).IsAffine := by
  simp [Mat4.IsAffine, rotate, mat4, Vec4.add, Vec4.smul]

theorem mul_isAffine (a b : Mat4 R) (ha : a.IsAffine) (hb : b.IsAffine) :
    (a * b).IsAffine := by
  obtain ⟨a0, a1, a2, a3⟩ := ha
  obtain ⟨b0, b1, b2, b3⟩ := hb
  simp [Mat4.IsAffine, Mat4.mul_def, Mat4.mul, Mat4.mulCol, Vec4.add, Vec4.smul,
    a0, a1, a2, a3, b0, b1, b2, b3]

theorem rotationMatrix_isAffine (F : MathFns R) (g : GameObject R) :
    (rotationMatrix F g).IsAffine :=
  mul_isAffine _ _ (mul_isAffine _ _ (rotate_isAffine F _ _) (rotate_isAffine F _ _))
    (rotate_isAffine F _ _)

theorem mulVec_w_of_isAffine (m : Mat4 R) (hm : m.IsAffine) (p : Vec3 R) :
    (m.mulVec p.toPoint).w = 1 := by
  obtain ⟨h0, h1, h2, h3⟩ := hm
  simp [Mat4.mulVec, Vec3.toPoint, Vec4.add, Vec4.smul, h0, h1, h2, h3]

/-- Applied to a point, the local matrix moves it by `m_Position`, then
rotates it, then scales it by `m_Scale`. -/
theorem localMatrix_mulVec (F : MathFns R) (g : GameObject R) (p : Vec3 R) :
    (localMatrix F g).mulVec p.toPoint = translateRotateScale F g p := by
  have hT : (translationMatrix g).mulVec p.toPoint =
      Vec3.toPoint ⟨p.x + g.m_Position.x, p.y + g.m_Position.y, p.z + g.m_Position.z⟩ := by
    simp [translationMatrix, translate, mat4, Mat4.mulVec, Vec3.toPoint, Vec4.add, Vec4.smul]
  have hS : ∀ v : Vec4 R, (scaleMatrix g).mulVec v =
      ⟨v.x * g.m_Scale.x, v.y * g.m_Scale.y, v.z * g.m_Scale.z, v.w⟩ := by
    intro v
    simp [scaleMatrix, scale, mat4, Mat4.mulVec, Vec4.add, Vec4.smul, mul_comm]
  rw [localMatrix, Mat4.mulVec_mul, Mat4.mulVec_mul, hT, hS, translateRotateScale,
    mulVec_w_of_isAffine _ (rotationMatrix_isAffine F g)]

end Rotations

theorem ratFns_inversesqrt_one : ratFns.inversesqrt 1 = 1 := by
  simp [ratFns]
  norm_num

theorem ratFns_cos_zero : ratFns.cos 0 = 1 := by
  simp [ratFns]

theorem ratFns_sin_zero : ratFns.sin 0 = 0 := by
  simp [ratFns]

theorem chainHeap_hierarchy : Hierarchy chainRank chainHeap := by
  intro n g hg
  match n with
  | 0 =>
    simp [chainHeap] at hg
    subst hg
    simp [nodeA, GameObject.new, chainHeap, chainRank]
  | 1 =>
    simp [chainHeap] at hg
    subst hg
    simp [nodeB, GameObject.new, chainHeap, chainRank]
  | 2 =>
    simp [chainHeap] at hg
    subst hg
    simp [nodeC, GameObject.new, chainHeap, chainRank]
  | k + 3 => simp [chainHeap] at hg

theorem chainHeap_isChain : IsChain chainHeap [0, 1, 2] := by
  intro i n hi
  match i with
  | 0 =>
    simp at hi
    subst hi
    exact ⟨nodeA, rfl, rfl, fun c hc => by simp at hc; subst hc; simp [nodeA]⟩
  | 1 =>
    simp at hi
    subst hi
    exact ⟨nodeB, rfl, rfl, fun c hc => by simp at hc; subst hc; simp [nodeB]⟩
  | 2 =>
    simp at hi
    subst hi
    exact ⟨nodeC, rfl, rfl, fun c hc => by simp at hc⟩
  | k + 3 => simp at hi

theorem nodeA_rotation : rotationMatrix ratFns nodeA = 1 := by
  have hr : nodeA.m_Rotation = ⟨0, 0, 0⟩ := rfl
  simp only [rotationMatrix, rotationX, rotationY, rotationZ, hr,
    rotate_axisX ratFns ratFns_inversesqrt_one, rotate_axisY ratFns ratFns_inversesqrt_one,
    rotate_axisZ ratFns ratFns_inversesqrt_one, ratFns_cos_zero, ratFns_sin_zero, neg_zero]
  rw [show (⟨⟨1, 0, 0, 0⟩, ⟨0, 1, 0, 0⟩, ⟨0, 0, 1, 0⟩, ⟨0, 0, 0, 1⟩⟩ : Mat4 ℚ) = 1 from rfl]
  simp

/-- The local matrix of `nodeA`: scale 2 and the translation column doubled. -/
theorem nodeA_local : localMatrix ratFns nodeA =
    ⟨⟨2, 0, 0, 0⟩, ⟨0, 2, 0, 0⟩, ⟨0, 0, 2, 0⟩, ⟨2, 0, 0, 1⟩⟩ := by
  rw [localMatrix, nodeA_rotation, mul_one]
  have hp : nodeA.m_Position = ⟨1, 0, 0⟩ := rfl
  have hs : nodeA.m_Scale = ⟨2, 2, 2⟩ := rfl
  simp [scaleMatrix, translationMatrix, hp, hs, Mat4.mul_def, Mat4.mul, Mat4.mulCol, Vec4.add,
    Vec4.smul, translate, scale, mat4]

theorem nodeA_scaleRotateTranslate :
    scaleRotateTranslate ratFns nodeA ⟨0, 0, 0⟩ = ⟨1, 0, 0, 1⟩ := by
  have hp : nodeA.m_Position = ⟨1, 0, 0⟩ := rfl
  have hs : nodeA.m_Scale = ⟨2, 2, 2⟩ := rfl
  simp only [scaleRotateTranslate, nodeA_rotation, hp, hs]
  simp [Mat4.one_def, mat4, Mat4.mulVec, Vec4.add, Vec4.smul, Vec3.toPoint]

theorem ratFns_cos_one : ratFns.cos 1 = 0 := by
  simp [ratFns]

theorem ratFns_sin_one : ratFns.sin 1 = 1 := by
  simp [ratFns]
  norm_num

/-- The local matrix of `nodeB`: a quarter turn about Z applied after the
translation. -/
theorem nodeB_local : localMatrix ratFns nodeB =
    ⟨⟨0, 1, 0, 0⟩, ⟨-1, 0, 0, 0⟩, ⟨0, 0, 1, 0⟩, ⟨-3, 0, 0, 1⟩⟩ := by
  have hr : nodeB.m_Rotation = ⟨0, 0, 1⟩ := rfl
  have hp : nodeB.m_Position = ⟨0, 3, 0⟩ := rfl
  have hs : nodeB.m_Scale = ⟨1, 1, 1⟩ := rfl
  simp only [localMatrix, rotationMatrix, rotationX, rotationY, rotationZ, hr,
    rotate_axisX ratFns ratFns_inversesqrt_one, rotate_axisY ratFns ratFns_inversesqrt_one,
    rotate_axisZ ratFns ratFns_inversesqrt_one, ratFns_cos_zero, ratFns_sin_zero,
    ratFns_cos_one, ratFns_sin_one, neg_zero, scaleMatrix, translationMatrix, hp, hs]
  simp [Mat4.mul_def, Mat4.mul, Mat4.mulCol, Vec4.add, Vec4.smul, translate, scale, mat4]

/-- The local matrix of `nodeC`. -/
theorem nodeC_local : localMatrix ratFns nodeC =
    ⟨⟨1, 0, 0, 0⟩, ⟨0, 2, 0, 0⟩, ⟨0, 0, 3, 0⟩, ⟨0, 0, 12, 1⟩⟩ := by
  have hr : nodeC.m_Rotation = ⟨0, 0, 0⟩ := rfl
  have hp : nodeC.m_Position = ⟨0, 0, 4⟩ := rfl
  have hs : nodeC.m_Scale = ⟨1, 2, 3⟩ := rfl
  simp only [localMatrix, rotationMatrix, rotationX, rotationY, rotationZ, hr,
    rotate_axisX ratFns ratFns_inversesqrt_one, rotate_axisY ratFns ratFns_inversesqrt_one,
    rotate_axisZ ratFns ratFns_inversesqrt_one, ratFns_cos_zero, ratFns_sin_zero,
    neg_zero, scaleMatrix, translationMatrix, hp, hs]
  simp [Mat4.mul_def, Mat4.mul, Mat4.mulCol, Vec4.add, Vec4.smul, translate, scale, mat4]
  norm_num

theorem nodeBA_product : localMatrix ratFns nodeB * localMatrix ratFns nodeA =
    ⟨⟨0, 2, 0, 0⟩, ⟨-2, 0, 0, 0⟩, ⟨0, 0, 2, 0⟩, ⟨-3, 2, 0, 1⟩⟩ := by
  rw [nodeA_local, nodeB_local]
  simp [Mat4.mul_def, Mat4.mul, Mat4.mulCol, Vec4.add, Vec4.smul]

theorem nodeCBA_product :
    localMatrix ratFns nodeC * localMatrix ratFns nodeB * localMatrix ratFns nodeA =
    ⟨⟨0, 4, 0, 0⟩, ⟨-2, 0, 0, 0⟩, ⟨0, 0, 6, 0⟩, ⟨-3, 4, 12, 1⟩⟩ := by
  rw [nodeA_local, nodeB_local, nodeC_local]
  simp [Mat4.mul_def, Mat4.mul, Mat4.mulCol, Vec4.add, Vec4.smul]
  norm_num

/-- Witness for C1 on the root of `chainHeap`, whose matrix is stale before
the call; the value written is the matrix with columns `(2,0,0,0)`,
`(0,2,0,0)`, `(0,0,2,0)`, `(2,0,0,1)`. -/
theorem update_parentless_model_witness :
    Hierarchy chainRank chainHeap ∧ chainHeap[0]? = some nodeA ∧
      nodeA.m_ParentGameObject = none ∧ chainRank 0 < 3 ∧
      nodeA.m_ModelMatrix = mat4 7 ∧
      ∃ h', update ratFns 3 chainHeap 0 = some h' ∧
        modelAt h' 0 = some ⟨⟨2, 0, 0, 0⟩, ⟨0, 2, 0, 0⟩, ⟨0, 0, 2, 0⟩, ⟨2, 0, 0, 1⟩⟩ := by
  obtain ⟨h', hu, hm⟩ := update_parentless_model ratFns chainRank chainHeap 0 nodeA
    chainHeap_hierarchy rfl rfl 3 (by decide)
  refine ⟨chainHeap_hierarchy, rfl, rfl, by decide, rfl, h', hu, ?_⟩
  rw [hm]
  exact congrArg some ((localMatrix_flat ratFns nodeA).symm.trans nodeA_local)

/-- Witness for C2 on the first two nodes of `chainHeap`: the root ends with
its local matrix and the child with its local matrix times that. -/
theorem update_child_model_witness :
    Hierarchy chainRank chainHeap ∧ chainHeap[0]? = some nodeA ∧
      nodeA.m_ParentGameObject = none ∧ 1 ∈ nodeA.m_ChildGameObjects ∧
      chainHeap[1]? = some nodeB ∧ nodeB.m_ParentGameObject = some 0 ∧ chainRank 0 < 3 ∧
      ∃ h', update ratFns 3 chainHeap 0 = some h' ∧
        modelAt h' 0 = some ⟨⟨2, 0, 0, 0⟩, ⟨0, 2, 0, 0⟩, ⟨0, 0, 2, 0⟩, ⟨2, 0, 0, 1⟩⟩ ∧
        modelAt h' 1 = some ⟨⟨0, 2, 0, 0⟩, ⟨-2, 0, 0, 0⟩, ⟨0, 0, 2, 0⟩, ⟨-3, 2, 0, 1⟩⟩ := by
  have hmem : 1 ∈ nodeA.m_ChildGameObjects := by simp [nodeA]
  obtain ⟨h', w, hu, hroot, hw, hchild⟩ := update_child_model ratFns chainRank chainHeap 0 1
    nodeA nodeB chainHeap_hierarchy rfl rfl hmem rfl rfl 3 (by decide)
  have hwA : w = localMatrix ratFns nodeA := hw
  refine ⟨chainHeap_hierarchy, rfl, rfl, hmem, rfl, rfl, by decide, h', hu, ?_, ?_⟩
  · rw [hroot, hwA, nodeA_local]
  · rw [hchild, hwA]
    exact congrArg some nodeBA_product

/-- Witness for C3: the three-level chain `nodeA -> nodeB -> nodeC` with
stale matrices; the last node ends with `local(C) * local(B) * local(A)`,
the matrix with columns `(0,4,0,0)`, `(-2,0,0,0)`, `(0,0,6,0)`,
`(-3,4,12,1)`. -/
theorem update_chain_world_witness :
    Hierarchy chainRank chainHeap ∧ IsChain chainHeap [0, 1, 2] ∧ chainRank 0 < 3 ∧
      ∃ h', update ratFns 3 chainHeap 0 = some h' ∧
        modelAt h' 2 = some (localMatrix ratFns nodeC * localMatrix ratFns nodeB
          * localMatrix ratFns nodeA) ∧
        modelAt h' 2 = some ⟨⟨0, 4, 0, 0⟩, ⟨-2, 0, 0, 0⟩, ⟨0, 0, 6, 0⟩, ⟨-3, 4, 12, 1⟩⟩ ∧
        modelAt h' 1 = some (localMatrix ratFns nodeB * localMatrix ratFns nodeA) ∧
        modelAt h' 0 = some (localMatrix ratFns nodeA) := by
  refine ⟨chainHeap_hierarchy, chainHeap_isChain, by decide, ?_⟩
  obtain ⟨h', hu, hw, -, -⟩ := update_chain_world ratFns chainRank chainHeap [0, 1, 2] 0
    chainHeap_hierarchy chainHeap_isChain rfl 3 (by decide)
  have h2 : modelAt h' 2 = some (localMatrix ratFns nodeC * localMatrix ratFns nodeB
      * localMatrix ratFns nodeA) := by
    rw [hw 2 2 rfl]
    simp [localAt, chainHeap, mul_assoc]
  refine ⟨h', hu, h2, ?_, ?_, ?_⟩
  · rw [h2, nodeCBA_product]
  · rw [hw 1 1 rfl]
    simp [localAt, chainHeap]
  · rw [hw 0 0 rfl]
    simp [localAt, chainHeap]

section ApplyClaim

variable {R : Type} [Field R]

/-- C10, amended: for a parentless object in an acyclic hierarchy and every
point `p`, the model matrix written by `update()`, applied to `(p, 1)`, gives
the point obtained by first moving `p` by `m_Position`, then rotating it, then
scaling it by `m_Scale`. -/
theorem update_parentless_applies (F : MathFns R) (rank : Nat → Nat) (h : Heap R) (n : Nat)
    (g : GameObject R) (hH : Hierarchy rank h) (hg : h[n]? = some g)
    (hp : g.m_ParentGameObject = none) (fuel : Nat) (hfuel : rank n < fuel) (p : Vec3 R) :
    ∃ h' M, update F fuel h n = some h' ∧ modelAt h' n = some M ∧
      M.mulVec p.toPoint = translateRotateScale F g p := by
  obtain ⟨h', hu, hw⟩ := update_chain_aux F rank h [n] n hH
    (isChain_singleton h n g hg hp) rfl fuel hfuel
  refine ⟨h', _, hu, hw 0 n rfl, ?_⟩
  rw [chainWorld_zero F h [n] n rfl, localAt_of_lookup F h n g hg, localMatrix_mulVec]

end ApplyClaim

/-- Witness for the amended C10 on the root of `chainHeap` and the origin:
moved to `(1,0,0)`, not rotated, scaled to `(2,0,0)`. -/
theorem update_parentless_applies_witness :
    Hierarchy chainRank chainHeap ∧ chainHeap[0]? = some nodeA ∧
      nodeA.m_ParentGameObject = none ∧ chainRank 0 < 3 ∧
      ∃ h' M, update ratFns 3 chainHeap 0 = some h' ∧ modelAt h' 0 = some M ∧
        M.mulVec (Vec3.toPoint ⟨0, 0, 0⟩) = translateRotateScale ratFns nodeA ⟨0, 0, 0⟩ ∧
        translateRotateScale ratFns nodeA ⟨0, 0, 0⟩ = ⟨2, 0, 0, 1⟩ := by
  obtain ⟨h', M, hu, hM, happ⟩ := update_parentless_applies ratFns chainRank chainHeap 0 nodeA
    chainHeap_hierarchy rfl rfl 3 (by decide) ⟨0, 0, 0⟩
  refine ⟨chainHeap_hierarchy, rfl, rfl, by decide, h', M, hu, hM, happ, ?_⟩
  rw [← localMatrix_mulVec, nodeA_local]
  simp [Mat4.mulVec, Vec4.add, Vec4.smul, Vec3.toPoint]

/-- C10 as stated fails: for the parentless `nodeA` (position `(1,0,0)`,
no rotation, scale `(2,2,2)`) the matrix written by `update()` sends the
origin to `(2,0,0)`, while scaling, then rotating, then translating the origin
gives `(1,0,0)`. -/
theorem update_parentless_not_scale_first :
    nodeA.m_ParentGameObject = none ∧
      ∃ h' M, update ratFns 3 chainHeap 0 = some h' ∧ modelAt h' 0 = some M ∧
        M.mulVec (Vec3.toPoint ⟨0, 0, 0⟩) = ⟨2, 0, 0, 1⟩ ∧
        scaleRotateTranslate ratFns nodeA ⟨0, 0, 0⟩ = ⟨1, 0, 0, 1⟩ ∧
        M.mulVec (Vec3.toPoint ⟨0, 0, 0⟩) ≠ scaleRotateTranslate ratFns nodeA ⟨0, 0, 0⟩ := by
  obtain ⟨h', hu, hw⟩ := update_chain_aux ratFns chainRank chainHeap [0] 0 chainHeap_hierarchy
    (isChain_singleton chainHeap 0 nodeA rfl rfl) rfl 3 (by decide)
  have hM : modelAt h' 0 = some (localMatrix ratFns nodeA) := by
    rw [hw 0 0 rfl, chainWorld_zero ratFns chainHeap [0] 0 rfl,
      localAt_of_lookup ratFns chainHeap 0 nodeA rfl]
  have hval : (localMatrix ratFns nodeA).mulVec (Vec3.toPoint ⟨0, 0, 0⟩) = ⟨2, 0, 0, 1⟩ := by
    rw [nodeA_local]
    simp [Mat4.mulVec, Vec4.add, Vec4.smul, Vec3.toPoint]
  refine ⟨rfl, h', _, hu, hM, hval, nodeA_scaleRotateTranslate, ?_⟩
  rw [hval, nodeA_scaleRotateTranslate]
  intro hcontra
  have := congrArg Vec4.x hcontra
  norm_num at this

/-! ## What the graphics calls of one member function amount to -/

section GraphicsLemmas

variable {R : Type}

theorem fresh_of_eq (B : Backend R) (hB : B.FreshBuffers) (s : GLState R) (b : Nat)
    (hb : B.genBuffer s = b) : b ∉ s.buffers :=
  hb ▸ hB s

theorem nonzero_buffer_of_eq (B : Backend R) (hB : B.NonZero) (s : GLState R) (b : Nat)
    (hb : B.genBuffer s = b) : b ≠ 0 :=
  hb ▸ (hB s).1

theorem nonzero_array_of_eq (B : Backend R) (hB : B.NonZero) (s : GLState R) (a : Nat)
    (ha : B.genVertexArray s = a) : a ≠ 0 :=
  ha ▸ (hB s).2.1

theorem nonzero_program_of_eq (B : Backend R) (hB : B.NonZero) (s : GLState R) (p : Nat)
    (hp : B.createProgram s = p) : p ≠ 0 :=
  hp ▸ (hB s).2.2

theorem callsSince_append (s0 : GLState R) (s : GLState R) (cs : List (GLCall R))
    (h : s.log = s0.log ++ cs) : callsSince s0 s = cs := by
  simp [callsSince, h]

/-- The effect of `createBuffer` in terms of the three names the driver hands
out. -/
theorem createBuffer_spec (B : Backend R) (s : GLState R) (g : GameObject R)
    (pVerts : List (Vertex R)) (numVerts : Int) (pindices : List Int) (numIndices : Int) :
    ∃ a v e : Nat,
      createBuffer B s g pVerts numVerts pindices numIndices =
        ({ g with m_NoOfVertices := numVerts, m_NoOfIndices := numIndices, m_VAO := a,
                  m_VBO := v, m_EBO := e },
         { log := s.log ++ createBufferCalls B.sizeBits a v e pVerts numVerts pindices numIndices
           buffers := e :: v :: s.buffers
           vertexArrays := a :: s.vertexArrays
           programs := s.programs
           shaders := s.shaders }) ∧
      (B.FreshBuffers → v ≠ e) ∧
      (B.NonZero → a ≠ 0 ∧ v ≠ 0 ∧ e ≠ 0) := by
  simp only [createBuffer, glGenVertexArrays, glGenBuffers, GLState.emit]
  generalize ha : B.genVertexArray s = a
  generalize hv : B.genBuffer _ = v
  generalize he : B.genBuffer _ = e
  refine ⟨a, v, e, ?_, fun hB => ?_, fun hB => ?_⟩
  · simp only [createBufferCalls, List.append_assoc, List.singleton_append, List.cons_append,
      List.nil_append]
  · have h1 := fresh_of_eq B hB _ e he
    intro hve
    exact h1 (by simp [hve])
  · exact ⟨nonzero_array_of_eq B hB _ a ha, nonzero_buffer_of_eq B hB _ v hv,
      nonzero_buffer_of_eq B hB _ e he⟩

theorem erase_two (l : List Nat) (x y : Nat) : ((y :: x :: l).erase x).erase y = l := by
  by_cases h : y = x
  · subst h
    simp
  · simp [List.erase_cons, h, Ne.symm h]

/-- The effect of `loadShader` in terms of the three names the driver hands
out. -/
theorem loadShader_spec (B : Backend R) (s : GLState R) (g : GameObject R)
    (vsFilename fsFilename : String) :
    ∃ vsh fsh p : Nat,
      loadShader B s g vsFilename fsFilename =
        ({ g with m_ShaderProgram := p },
         { log := s.log ++ loadShaderCalls vsFilename fsFilename vsh fsh p
           buffers := s.buffers
           vertexArrays := s.vertexArrays
           programs := p :: s.programs
           shaders := s.shaders }) ∧
      (B.NonZero → p ≠ 0) := by
  simp only [loadShader, loadShaderFromFile, glCreateProgram, glDeleteShader, GLState.emit]
  generalize B.createShader s = vsh
  generalize B.createShader _ = fsh
  generalize hp : B.createProgram _ = p
  refine ⟨vsh, fsh, p, ?_, fun hB => nonzero_program_of_eq B hB _ p hp⟩
  simp only [loadShaderCalls, List.append_assoc, List.singleton_append, List.cons_append,
    List.nil_append, erase_two]

theorem callsSince_trans (s0 s1 s2 : GLState R) (c1 c2 : List (GLCall R))
    (h1 : s1.log = s0.log ++ c1) (h2 : s2.log = s1.log ++ c2) :
    callsSince s0 s2 = c1 ++ c2 := by
  apply callsSince_append
  rw [h2, h1, List.append_assoc]

/-- The effect of the destructor on the graphics context. -/
theorem destroy_spec (s : GLState R) (g : GameObject R) :
    GameObject.destroy s g =
      ({ g with m_ChildGameObjects := [] },
       { log := s.log ++ [.glDeleteProgram g.m_ShaderProgram, .glDeleteBuffers g.m_EBO,
           .glDeleteBuffers g.m_VBO, .glDeleteVertexArrays g.m_VAO]
         buffers := (s.buffers.erase g.m_EBO).erase g.m_VBO
         vertexArrays := s.vertexArrays.erase g.m_VAO
         programs := s.programs.erase g.m_ShaderProgram
         shaders := s.shaders }) := by
  simp only [GameObject.destroy, glDeleteProgram, glDeleteBuffers, glDeleteVertexArrays,
    GLState.emit, List.append_assoc, List.singleton_append, List.cons_append, List.nil_append]

end GraphicsLemmas

/-! ## The claims about construction and the graphics calls -/

section GraphicsClaims

variable {R : Type}

/-- When the byte count fits the signed `size_t`-wide range, the wrapped
product is the plain product. -/
theorem byteSize_eq (w : Nat) (hw : 0 < w) (n : Int) (k : Nat)
    (hlo : -(2 : Int) ^ (w - 1) ≤ n * k) (hhi : n * k < (2 : Int) ^ (w - 1)) :
    byteSize w n k = n * k := by
  have hpow : (2 : Int) ^ w = 2 * 2 ^ (w - 1) := by
    obtain ⟨v, rfl⟩ : ∃ v, w = v + 1 := ⟨w - 1, by omega⟩
    simp [pow_succ, mul_comm]
  have hpos : (0 : Int) < 2 ^ (w - 1) := by positivity
  have hu : ((n % 2 ^ w) * (k : Int)) % 2 ^ w = (n * k) % 2 ^ w := by
    rw [Int.mul_emod, Int.emod_emod, ← Int.mul_emod]
  unfold byteSize
  simp only [hu]
  by_cases hneg : 0 ≤ n * (k : Int)
  · have h1 : (n * k) % 2 ^ w = n * k := Int.emod_eq_of_lt hneg (by omega)
    rw [h1, if_pos hhi]
  · have h1 : (n * k) % 2 ^ w = n * k + 2 ^ w := by
      rw [← Int.add_emod_self]
      exact Int.emod_eq_of_lt (by omega) (by omega)
    rw [h1, if_neg (by omega)]
    omega

/-- C4: a default-constructed object has all four handles and both counts
zero, the identity model matrix, position and rotation zero, scale one, the
listed material colours, specular power 20, no parent and no children. -/
theorem new_defaults [Field R] :
    (GameObject.new : GameObject R).m_VBO = 0 ∧
    (GameObject.new : GameObject R).m_EBO = 0 ∧
    (GameObject.new : GameObject R).m_VAO = 0 ∧
    (GameObject.new : GameObject R).m_ShaderProgram = 0 ∧
    (GameObject.new : GameObject R).m_NoOfVertices = 0 ∧
    (GameObject.new : GameObject R).m_NoOfIndices = 0 ∧
    (GameObject.new : GameObject R).m_ModelMatrix = 1 ∧
    (GameObject.new : GameObject R).m_ModelMatrix =
      ⟨⟨1, 0, 0, 0⟩, ⟨0, 1, 0, 0⟩, ⟨0, 0, 1, 0⟩, ⟨0, 0, 0, 1⟩⟩ ∧
    (GameObject.new : GameObject R).m_Position = ⟨0, 0, 0⟩ ∧
    (GameObject.new : GameObject R).m_Rotation = ⟨0, 0, 0⟩ ∧
    (GameObject.new : GameObject R).m_Scale = ⟨1, 1, 1⟩ ∧
    (GameObject.new : GameObject R).m_AmbientMaterial = ⟨0.2, 0.2, 0.2, 1⟩ ∧
    (GameObject.new : GameObject R).m_DiffuseMaterial = ⟨0.6, 0.6, 0.6, 1⟩ ∧
    (GameObject.new : GameObject R).m_SpecularMaterial = ⟨1, 1, 1, 1⟩ ∧
    (GameObject.new : GameObject R).m_SpecularPower = 20 ∧
    (GameObject.new : GameObject R).m_ParentGameObject = none ∧
    (GameObject.new : GameObject R).m_ChildGameObjects = [] :=
  ⟨rfl, rfl, rfl, rfl, rfl, rfl, rfl, rfl, rfl, rfl, rfl, rfl, rfl, rfl, rfl, rfl, rfl⟩

/-- C7: `createBuffer(vertices, N, indices, M)` stores the counts `N` and `M`
and uploads `N * sizeof(Vertex)` bytes to the buffer bound as vertex buffer
and `M * sizeof(int)` bytes to the buffer bound as index buffer, whenever
those byte counts fit the signed range of a `size_t`-wide integer. -/
theorem createBuffer_counts_and_sizes (B : Backend R) (s : GLState R) (g : GameObject R)
    (pVerts : List (Vertex R)) (N : Int) (pindices : List Int) (M : Int)
    (hw : 0 < B.sizeBits)
    (hNlo : -(2 : Int) ^ (B.sizeBits - 1) ≤ N * sizeofVertex)
    (hNhi : N * sizeofVertex < (2 : Int) ^ (B.sizeBits - 1))
    (hMlo : -(2 : Int) ^ (B.sizeBits - 1) ≤ M * sizeofInt)
    (hMhi : M * sizeofInt < (2 : Int) ^ (B.sizeBits - 1)) :
    (createBuffer B s g pVerts N pindices M).1.m_NoOfVertices = N ∧
    (createBuffer B s g pVerts N pindices M).1.m_NoOfIndices = M ∧
    (callsSince s (createBuffer B s g pVerts N pindices M).2).take 8 =
      [.glGenVertexArrays (createBuffer B s g pVerts N pindices M).1.m_VAO,
       .glBindVertexArray (createBuffer B s g pVerts N pindices M).1.m_VAO,
       .glGenBuffers (createBuffer B s g pVerts N pindices M).1.m_VBO,
       .glBindBuffer .GL_ARRAY_BUFFER (createBuffer B s g pVerts N pindices M).1.m_VBO,
       .glBufferData .GL_ARRAY_BUFFER (N * sizeofVertex) (.vertices pVerts),
       .glGenBuffers (createBuffer B s g pVerts N pindices M).1.m_EBO,
       .glBindBuffer .GL_ELEMENT_ARRAY_BUFFER (createBuffer B s g pVerts N pindices M).1.m_EBO,
       .glBufferData .GL_ELEMENT_ARRAY_BUFFER (M * sizeofInt) (.indices pindices)] := by
  obtain ⟨a, v, e, hcb, -, -⟩ := createBuffer_spec B s g pVerts N pindices M
  rw [hcb]
  refine ⟨rfl, rfl, ?_⟩
  rw [callsSince_append s _ _ rfl]
  simp only [createBufferCalls, byteSize_eq _ hw N _ hNlo hNhi, byteSize_eq _ hw M _ hMlo hMhi]
  rfl

/-- C8: `setUpGameObjectMaterial` looks up the four uniform names in the given
program and uploads the ambient, diffuse and specular colours to the first
three locations; the scalar sent to the "specularPower" location is that
location converted to a float, so the upload does not depend on
`m_SpecularPower`. -/
theorem setUpGameObjectMaterial_uploads [Field R] (B : Backend R) (s : GLState R) (g : GameObject R)
    (program : Nat) :
    (∃ la ld ls lp : Int,
      callsSince s (setUpGameObjectMaterial B s g program) =
        [.glGetUniformLocation program "ambientMaterialColour" la,
         .glUniform4fv la g.m_AmbientMaterial,
         .glGetUniformLocation program "diffuseMaterialColour" ld,
         .glUniform4fv ld g.m_DiffuseMaterial,
         .glGetUniformLocation program "specularMaterialColour" ls,
         .glUniform4fv ls g.m_SpecularMaterial,
         .glGetUniformLocation program "specularPower" lp,
         .glUniform1f lp (lp : R)]) ∧
    ∀ x : R, setUpGameObjectMaterial B s { g with m_SpecularPower := x } program =
      setUpGameObjectMaterial B s g program := by
  refine ⟨?_, fun x => rfl⟩
  simp only [setUpGameObjectMaterial, glGetUniformLocation, GLState.emit]
  generalize B.uniformLocation s program "ambientMaterialColour" = la
  generalize B.uniformLocation _ program "diffuseMaterialColour" = ld
  generalize B.uniformLocation _ program "specularMaterialColour" = ls
  generalize B.uniformLocation _ program "specularPower" = lp
  refine ⟨la, ld, ls, lp, callsSince_append s _ _ ?_⟩
  simp only [List.append_assoc, List.singleton_append, List.cons_append, List.nil_append]

/-- C9: `createBuffer` configures the slots 0, 1, 2, 3 with 3, 4, 2, 3
components, stride 48 and byte offsets 0, 12, 28, 36; each offset is the sum
of the sizes of the fields before it in the vertex record, each field is its
component count times four bytes, and the last slot ends at the stride. -/
theorem createBuffer_attribute_layout (B : Backend R) (s : GLState R) (g : GameObject R)
    (pVerts : List (Vertex R)) (numVerts : Int) (pindices : List Int) (numIndices : Int) :
    (callsSince s (createBuffer B s g pVerts numVerts pindices numIndices).2).filterMap
        GLCall.attribute =
      [(0, 3, 48, 0), (1, 4, 48, 12), (2, 2, 48, 28), (3, 3, 48, 36)] ∧
    sizeofVertex = 48 ∧
    sizeofVec3 = 3 * 4 ∧ sizeofVec4 = 4 * 4 ∧ sizeofVec2 = 2 * 4 ∧
    12 = sizeofVec3 ∧
    28 = sizeofVec3 + sizeofVec4 ∧
    36 = sizeofVec3 + sizeofVec4 + sizeofVec2 ∧
    36 + sizeofVec3 = sizeofVertex := by
  refine ⟨?_, rfl, rfl, rfl, rfl, rfl, rfl, rfl, rfl⟩
  obtain ⟨a, v, e, hcb, -, -⟩ := createBuffer_spec B s g pVerts numVerts pindices numIndices
  rw [hcb, callsSince_append s _ _ rfl]
  rfl

end GraphicsClaims

theorem foldr_max_ge (l : List Nat) (x : Nat) (hx : x ∈ l) : x ≤ l.foldr max 0 := by
  induction l with
  | nil => simp at hx
  | cons a t ih =>
    rcases List.mem_cons.mp hx with h | h
    · subst h
      simp
    · have := ih h
      simp only [List.foldr_cons]
      omega

theorem countingBackend_fresh : countingBackend.FreshBuffers := by
  intro s hmem
  have := foldr_max_ge s.buffers _ hmem
  simp only [countingBackend] at this
  omega

theorem countingBackend_nonZero : countingBackend.NonZero := by
  intro s
  simp [countingBackend]

/-- On a platform with a 64-bit `size_t` every `int` count fits: the wrapped
product is the plain product for the record sizes `createBuffer` uses. -/
theorem byteSize_int_count (n : Int) (hlo : -(2 : Int) ^ 31 ≤ n) (hhi : n < (2 : Int) ^ 31)
    (k : Nat) (hk : k ≤ 48) : byteSize 64 n k = n * k := by
  have hk' : (k : Int) ≤ 48 := by exact_mod_cast hk
  have hk0 : (0 : Int) ≤ k := Int.ofNat_nonneg k
  apply byteSize_eq 64 (by decide) n k
  · norm_num at hlo hhi ⊢
    nlinarith
  · norm_num at hlo hhi ⊢
    nlinarith

/-- Witness for C7: the triangle, three vertices and three indices, on a
platform with a 64-bit `size_t`; 144 and 12 bytes are uploaded. -/
theorem createBuffer_counts_and_sizes_witness :
    0 < countingBackend.sizeBits ∧
    -(2 : Int) ^ (countingBackend.sizeBits - 1) ≤ 3 * sizeofVertex ∧
    (3 : Int) * sizeofVertex < (2 : Int) ^ (countingBackend.sizeBits - 1) ∧
    -(2 : Int) ^ (countingBackend.sizeBits - 1) ≤ 3 * sizeofInt ∧
    (3 : Int) * sizeofInt < (2 : Int) ^ (countingBackend.sizeBits - 1) ∧
    (createBuffer countingBackend emptyGL GameObject.new triangleVerts 3 triangleIndices
      3).1.m_NoOfVertices = 3 ∧
    (createBuffer countingBackend emptyGL GameObject.new triangleVerts 3 triangleIndices
      3).1.m_NoOfIndices = 3 ∧
    (callsSince emptyGL
        (createBuffer countingBackend emptyGL GameObject.new triangleVerts 3 triangleIndices
          3).2).take 8 =
      [.glGenVertexArrays 1,
       .glBindVertexArray 1,
       .glGenBuffers 1,
       .glBindBuffer .GL_ARRAY_BUFFER 1,
       .glBufferData .GL_ARRAY_BUFFER 144 (.vertices triangleVerts),
       .glGenBuffers 2,
       .glBindBuffer .GL_ELEMENT_ARRAY_BUFFER 2,
       .glBufferData .GL_ELEMENT_ARRAY_BUFFER 12 (.indices triangleIndices)] := by
  have hw : 0 < countingBackend.sizeBits := by decide
  have h1 : -(2 : Int) ^ (countingBackend.sizeBits - 1) ≤ 3 * sizeofVertex := by decide
  have h2 : (3 : Int) * sizeofVertex < (2 : Int) ^ (countingBackend.sizeBits - 1) := by decide
  have h3 : -(2 : Int) ^ (countingBackend.sizeBits - 1) ≤ 3 * sizeofInt := by decide
  have h4 : (3 : Int) * sizeofInt < (2 : Int) ^ (countingBackend.sizeBits - 1) := by decide
  exact ⟨hw, h1, h2, h3, h4,
    createBuffer_counts_and_sizes countingBackend emptyGL GameObject.new triangleVerts 3
      triangleIndices 3 hw h1 h2 h3 h4⟩

/-! ## The claims about the life of the handles -/

section HandleClaims

variable {R : Type} [Field R]

/-- C5: for an object set up by one `createBuffer` and one `loadShader`, in
either order, with a driver that hands out unused buffer names, the
destructor issues exactly four delete calls, for the program created by
`glCreateProgram` and for the index buffer, vertex buffer and vertex array
generated in `createBuffer`; over the whole life each of the four handles is
deleted exactly once, and afterwards no name is left in use that was not in
use before. -/
theorem destroy_releases_each_once (B : Backend R) (hB : B.FreshBuffers) (bufferFirst : Bool)
    (s0 : GLState R) (pVerts : List (Vertex R)) (numVerts : Int) (pindices : List Int)
    (numIndices : Int) (vsFilename fsFilename : String)
    (g gd : GameObject R) (s1 s2 : GLState R)
    (hsetup : setUpOnce B bufferFirst s0 GameObject.new pVerts numVerts pindices numIndices
      vsFilename fsFilename = (g, s1))
    (hdestroy : GameObject.destroy s1 g = (gd, s2)) :
    callsSince s1 s2 =
      [.glDeleteProgram g.m_ShaderProgram, .glDeleteBuffers g.m_EBO,
       .glDeleteBuffers g.m_VBO, .glDeleteVertexArrays g.m_VAO] ∧
    (∃ vsh fsh,
      ((callsSince s0 s1).filterMap GLCall.created).Perm
        [(.vertexArray, g.m_VAO), (.buffer, g.m_VBO), (.buffer, g.m_EBO),
         (.shader, vsh), (.shader, fsh), (.program, g.m_ShaderProgram)] ∧
      (callsSince s0 s1).filterMap GLCall.deleted = [(.shader, vsh), (.shader, fsh)]) ∧
    g.m_VBO ≠ g.m_EBO ∧
    ((callsSince s0 s2).filterMap GLCall.deleted).count (.program, g.m_ShaderProgram) = 1 ∧
    ((callsSince s0 s2).filterMap GLCall.deleted).count (.buffer, g.m_EBO) = 1 ∧
    ((callsSince s0 s2).filterMap GLCall.deleted).count (.buffer, g.m_VBO) = 1 ∧
    ((callsSince s0 s2).filterMap GLCall.deleted).count (.vertexArray, g.m_VAO) = 1 ∧
    s2.buffers = s0.buffers ∧ s2.vertexArrays = s0.vertexArrays ∧
    s2.programs = s0.programs ∧ s2.shaders = s0.shaders := by
  -- the setup, in terms of the names handed out
  have hs : ∃ a v e vsh fsh p : Nat, v ≠ e ∧
      g.m_VAO = a ∧ g.m_VBO = v ∧ g.m_EBO = e ∧ g.m_ShaderProgram = p ∧
      s1.buffers = e :: v :: s0.buffers ∧ s1.vertexArrays = a :: s0.vertexArrays ∧
      s1.programs = p :: s0.programs ∧ s1.shaders = s0.shaders ∧
      ((s1.log = s0.log ++ (createBufferCalls B.sizeBits a v e pVerts numVerts pindices
            numIndices ++ loadShaderCalls vsFilename fsFilename vsh fsh p)) ∨
       (s1.log = s0.log ++ (loadShaderCalls vsFilename fsFilename vsh fsh p ++
            createBufferCalls B.sizeBits a v e pVerts numVerts pindices numIndices))) := by
    cases bufferFirst with
    | true =>
      obtain ⟨a, v, e, hcb, hfresh, -⟩ :=
        createBuffer_spec B s0 GameObject.new pVerts numVerts pindices numIndices
      have hls := loadShader_spec B
        (createBuffer B s0 GameObject.new pVerts numVerts pindices numIndices).2
        (createBuffer B s0 GameObject.new pVerts numVerts pindices numIndices).1
        vsFilename fsFilename
      simp only [setUpOnce, if_true] at hsetup
      rw [hsetup, hcb] at hls
      obtain ⟨vsh, fsh, p, hls, -⟩ := hls
      obtain ⟨rfl, rfl⟩ := Prod.mk.inj hls
      exact ⟨a, v, e, vsh, fsh, p, hfresh hB, rfl, rfl, rfl, rfl, rfl, rfl, rfl, rfl,
        Or.inl (List.append_assoc _ _ _)⟩
    | false =>
      obtain ⟨vsh, fsh, p, hls, -⟩ := loadShader_spec B s0 GameObject.new vsFilename fsFilename
      have hcb := createBuffer_spec B
        (loadShader B s0 GameObject.new vsFilename fsFilename).2
        (loadShader B s0 GameObject.new vsFilename fsFilename).1
        pVerts numVerts pindices numIndices
      simp only [setUpOnce, Bool.false_eq_true, if_false] at hsetup
      rw [hsetup, hls] at hcb
      obtain ⟨a, v, e, hcb, hfresh, -⟩ := hcb
      obtain ⟨rfl, rfl⟩ := Prod.mk.inj hcb
      exact ⟨a, v, e, vsh, fsh, p, hfresh hB, rfl, rfl, rfl, rfl, rfl, rfl, rfl, rfl,
        Or.inr (List.append_assoc _ _ _)⟩
  obtain ⟨a, v, e, vsh, fsh, p, hve, hga, hgv, hge, hgp, hb1, ha1, hp1, hsh1, hlog⟩ := hs
  -- the destructor
  have hd := destroy_spec s1 g
  rw [hdestroy] at hd
  obtain ⟨-, hs2⟩ := Prod.mk.inj hd
  have hlog2 : s2.log = s1.log ++ [.glDeleteProgram p, .glDeleteBuffers e, .glDeleteBuffers v,
      .glDeleteVertexArrays a] := by
    rw [hs2, hga, hgv, hge, hgp]
  have hcreatedB : (createBufferCalls B.sizeBits a v e pVerts numVerts pindices
      numIndices).filterMap GLCall.created =
      [(.vertexArray, a), (.buffer, v), (.buffer, e)] := rfl
  have hcreatedS : (loadShaderCalls vsFilename fsFilename vsh fsh p :
      List (GLCall R)).filterMap GLCall.created =
      [(.shader, vsh), (.shader, fsh), (.program, p)] := rfl
  have hdeletedB : (createBufferCalls B.sizeBits a v e pVerts numVerts pindices
      numIndices).filterMap GLCall.deleted = [] := rfl
  have hdeletedS : (loadShaderCalls vsFilename fsFilename vsh fsh p :
      List (GLCall R)).filterMap GLCall.deleted = [(.shader, vsh), (.shader, fsh)] := rfl
  have hdeletedD : ([.glDeleteProgram p, .glDeleteBuffers e, .glDeleteBuffers v,
      .glDeleteVertexArrays a] : List (GLCall R)).filterMap GLCall.deleted =
      [(.program, p), (.buffer, e), (.buffer, v), (.vertexArray, a)] := rfl
  have hev : e ≠ v := Ne.symm hve
  have hsetupDeleted : (callsSince s0 s1).filterMap GLCall.deleted =
      [(.shader, vsh), (.shader, fsh)] := by
    rcases hlog with h | h
    · rw [callsSince_append s0 s1 _ h, List.filterMap_append, hdeletedB, hdeletedS]
      rfl
    · rw [callsSince_append s0 s1 _ h, List.filterMap_append, hdeletedB, hdeletedS]
      rfl
  have hdel : (callsSince s0 s2).filterMap GLCall.deleted =
      [(.shader, vsh), (.shader, fsh), (.program, p), (.buffer, e), (.buffer, v),
        (.vertexArray, a)] := by
    have h1 : s1.log = s0.log ++ callsSince s0 s1 := by
      rcases hlog with h | h
      · rw [callsSince_append s0 s1 _ h, h]
      · rw [callsSince_append s0 s1 _ h, h]
    rw [callsSince_trans s0 s1 s2 _ _ h1 hlog2, List.filterMap_append, hsetupDeleted, hdeletedD]
    rfl
  rw [hga, hgv, hge, hgp]
  refine ⟨callsSince_append s1 s2 _ hlog2, ⟨vsh, fsh, ?_, hsetupDeleted⟩, hve, ?_, ?_, ?_, ?_,
    ?_, ?_, ?_, ?_⟩
  · rcases hlog with h | h
    · rw [callsSince_append s0 s1 _ h, List.filterMap_append, hcreatedB, hcreatedS]
      exact List.Perm.refl _
    · rw [callsSince_append s0 s1 _ h, List.filterMap_append, hcreatedB, hcreatedS]
      exact List.perm_append_comm
  · rw [hdel]
    simp
  · rw [hdel]
    simp [List.count_cons, hve]
  · rw [hdel]
    simp [List.count_cons, hev]
  · rw [hdel]
    simp
  · rw [hs2, hb1, hge, hgv]
    simp
  · rw [hs2, ha1, hga]
    simp
  · rw [hs2, hp1, hgp]
    simp
  · rw [hs2, hsh1]

end HandleClaims

/-- Witness for C5 with the counting driver: buffers first, then the shader;
the destructor deletes program 1, buffers 2 and 1 and vertex array 1, and no
name stays in use. -/
theorem destroy_releases_each_once_witness :
    countingBackend.FreshBuffers ∧
    callsSince
        (setUpOnce countingBackend true emptyGL GameObject.new triangleVerts 3 triangleIndices 3 "vs.glsl" "fs.glsl").2
        (GameObject.destroy
          (setUpOnce countingBackend true emptyGL GameObject.new triangleVerts 3 triangleIndices 3 "vs.glsl" "fs.glsl").2
          (setUpOnce countingBackend true emptyGL GameObject.new triangleVerts 3 triangleIndices 3 "vs.glsl"
            "fs.glsl").1).2 =
      [.glDeleteProgram 1, .glDeleteBuffers 2, .glDeleteBuffers 1, .glDeleteVertexArrays 1] ∧
    (GameObject.destroy
        (setUpOnce countingBackend true emptyGL GameObject.new triangleVerts 3 triangleIndices 3 "vs.glsl" "fs.glsl").2
        (setUpOnce countingBackend true emptyGL GameObject.new triangleVerts 3 triangleIndices 3 "vs.glsl"
          "fs.glsl").1).2.buffers = [] := by
  obtain ⟨h1, -, -, -, -, -, -, h8, -⟩ := destroy_releases_each_once countingBackend
    countingBackend_fresh true emptyGL triangleVerts 3 triangleIndices 3 "vs.glsl" "fs.glsl" _ _ _ _ rfl rfl
  exact ⟨countingBackend_fresh, h1, h8⟩

section ReachableClaims

variable {R : Type} [Field R]

theorem update_lone (F : MathFns R) (fuel : Nat) (g : GameObject R)
    (hp : g.m_ParentGameObject = none) (hc : g.m_ChildGameObjects = []) :
    update F (fuel + 1) [g] 0 =
      some [{ g with m_ModelMatrix := newModelMatrix F g (mat4 1) }] := by
  have hm : parentModel [g] g = some (mat4 1) := by simp [parentModel, hp]
  rw [update_succ F fuel [g] 0 g (mat4 1) rfl hm, hc]
  rfl

/-- One member-function call keeps the object alone, sets the mesh handles if
it is `createBuffer`, sets the shader handle if it is `loadShader`, and
changes no handle otherwise. -/
theorem apply_loneState (F : MathFns R) (B : Backend R) (hB : B.NonZero) (fuel : Nat)
    (hfuel : 0 < fuel) (op : Op R) (w : World R) (cb ls : Bool) (hw : LoneState w cb ls) :
    ∃ w', op.apply F B fuel 0 w = some w' ∧
      LoneState w' (cb || op.isCreateBuffer) (ls || op.isLoadShader) := by
  obtain ⟨g, hheap, hp, hc, hm1, hm0, hs1, hs0⟩ := hw
  obtain ⟨k, rfl⟩ : ∃ k, fuel = k + 1 := ⟨fuel - 1, by omega⟩
  cases op with
  | update =>
    refine ⟨{ w with heap := [{ g with m_ModelMatrix := newModelMatrix F g (mat4 1) }] }, ?_, ?_⟩
    · simp only [Op.apply, hheap, update_lone F k g hp hc, Option.map_some']
    · simp only [Op.isCreateBuffer, Op.isLoadShader, Bool.or_false]
      exact ⟨_, rfl, hp, hc, hm1, hm0, hs1, hs0⟩
  | createBuffer pVerts numVerts pindices numIndices =>
    obtain ⟨a, v, e, hcb, -, hnz⟩ := createBuffer_spec B w.gl g pVerts numVerts pindices numIndices
    obtain ⟨ha, hv, he⟩ := hnz hB
    refine ⟨{ heap := [(createBuffer B w.gl g pVerts numVerts pindices numIndices).1],
              gl := (createBuffer B w.gl g pVerts numVerts pindices numIndices).2 }, ?_, ?_⟩
    · simp only [Op.apply, hheap, List.getElem?_cons_zero, Option.map_some', List.set_cons_zero]
    · simp only [Op.isCreateBuffer, Op.isLoadShader, Bool.or_true, Bool.or_false]
      rw [hcb]
      exact ⟨_, rfl, hp, hc, fun _ => ⟨hv, he, ha⟩, (fun h => Bool.noConfusion h), hs1, hs0⟩
  | loadShader vsFilename fsFilename =>
    obtain ⟨vsh, fsh, p, hl, hnz⟩ := loadShader_spec B w.gl g vsFilename fsFilename
    refine ⟨{ heap := [(loadShader B w.gl g vsFilename fsFilename).1],
              gl := (loadShader B w.gl g vsFilename fsFilename).2 }, ?_, ?_⟩
    · simp only [Op.apply, hheap, List.getElem?_cons_zero, Option.map_some', List.set_cons_zero]
    · simp only [Op.isCreateBuffer, Op.isLoadShader, Bool.or_true, Bool.or_false]
      rw [hl]
      exact ⟨_, rfl, hp, hc, hm1, hm0, fun _ => hnz hB, (fun h => Bool.noConfusion h)⟩
  | setUpGameObjectMaterial program =>
    refine ⟨{ w with gl := setUpGameObjectMaterial B w.gl g program }, ?_, ?_⟩
    · simp only [Op.apply, hheap, List.getElem?_cons_zero, Option.map_some']
    · simp only [Op.isCreateBuffer, Op.isLoadShader, Bool.or_false]
      exact ⟨g, hheap, hp, hc, hm1, hm0, hs1, hs0⟩

theorem runOps_loneState (F : MathFns R) (B : Backend R) (hB : B.NonZero) (fuel : Nat)
    (hfuel : 0 < fuel) :
    ∀ (ops : List (Op R)) (w : World R) (cb ls : Bool), LoneState w cb ls →
      ∃ w', runOps F B fuel 0 w ops = some w' ∧
        LoneState w' (cb || ops.any Op.isCreateBuffer) (ls || ops.any Op.isLoadShader)
  | [], w, cb, ls, hw => ⟨w, rfl, by simpa using hw⟩
  | op :: ops, w, cb, ls, hw => by
    obtain ⟨w1, h1, hw1⟩ := apply_loneState F B hB fuel hfuel op w cb ls hw
    obtain ⟨w2, h2, hw2⟩ := runOps_loneState F B hB fuel hfuel ops w1 _ _ hw1
    refine ⟨w2, ?_, ?_⟩
    · simp only [runOps, List.foldlM_cons, h1, Option.bind_eq_bind, Option.some_bind]
      exact h2
    · simpa [Bool.or_assoc] using hw2

theorem loneState_new (s : GLState R) : LoneState ⟨[GameObject.new], s⟩ false false :=
  ⟨GameObject.new, rfl, rfl, rfl, (fun h => Bool.noConfusion h), fun _ => ⟨rfl, rfl, rfl⟩,
    (fun h => Bool.noConfusion h), fun _ => rfl⟩

/-- C6, amended: in every state reached from a default-constructed object by
calls of `update`, `createBuffer`, `loadShader` and `setUpGameObjectMaterial`,
with a driver whose generating calls all succeed, the three mesh handles are
either all zero or all non-zero; they are non-zero exactly when `createBuffer`
has been called, and the shader handle is non-zero exactly when `loadShader`
has been called. -/
theorem reachable_handles (F : MathFns R) (B : Backend R) (hB : B.NonZero) (s : GLState R)
    (ops : List (Op R)) (fuel : Nat) (hfuel : 0 < fuel) :
    ∃ w g, runOps F B fuel 0 ⟨[GameObject.new], s⟩ ops = some w ∧ w.heap = [g] ∧
      (MeshUnset g ∨ MeshSet g) ∧
      (MeshSet g ↔ ops.any Op.isCreateBuffer = true) ∧
      (g.m_ShaderProgram ≠ 0 ↔ ops.any Op.isLoadShader = true) := by
  obtain ⟨w, hrun, g, hheap, -, -, hm1, hm0, hs1, hs0⟩ :=
    runOps_loneState F B hB fuel hfuel ops _ false false (loneState_new s)
  simp only [Bool.false_or] at hm1 hm0 hs1 hs0
  refine ⟨w, g, hrun, hheap, ?_, ⟨fun hset => ?_, hm1⟩, ⟨fun hset => ?_, hs1⟩⟩
  · cases hany : ops.any Op.isCreateBuffer with
    | true => exact Or.inr (hm1 hany)
    | false => exact Or.inl (hm0 hany)
  · cases hany : ops.any Op.isCreateBuffer with
    | true => rfl
    | false => exact absurd (hm0 hany).1 hset.1
  · cases hany : ops.any Op.isLoadShader with
    | true => rfl
    | false => exact absurd (hs0 hany) hset

end ReachableClaims

/-- Witness for the amended C6: `createBuffer`, then `update`, with the
counting driver. -/
theorem reachable_handles_witness :
    countingBackend.NonZero ∧ 0 < 1 ∧
    ∃ w g, runOps ratFns countingBackend 1 0 ⟨[GameObject.new], emptyGL⟩
        [.createBuffer triangleVerts 3 triangleIndices 3, .update] = some w ∧ w.heap = [g] ∧
      (MeshUnset g ∨ MeshSet g) ∧
      (MeshSet g ↔
        ([.createBuffer triangleVerts 3 triangleIndices 3, .update] : List (Op ℚ)).any Op.isCreateBuffer = true) ∧
      (g.m_ShaderProgram ≠ 0 ↔
        ([.createBuffer triangleVerts 3 triangleIndices 3, .update] : List (Op ℚ)).any Op.isLoadShader = true) :=
  ⟨countingBackend_nonZero, by decide,
    reachable_handles ratFns countingBackend countingBackend_nonZero emptyGL
      [.createBuffer triangleVerts 3 triangleIndices 3, .update] 1 (by decide)⟩

/-- C6 as stated fails: after `createBuffer` alone, with a driver whose
generating calls all succeed, the mesh handles are 1, 2 and 1 while the shader
handle is still zero. -/
theorem createBuffer_alone_half_set :
    countingBackend.NonZero ∧
    ∃ w g, runOps ratFns countingBackend 1 0 ⟨[GameObject.new], emptyGL⟩
        [.createBuffer triangleVerts 3 triangleIndices 3] = some w ∧ w.heap = [g] ∧
      g.m_VBO = 1 ∧ g.m_EBO = 2 ∧ g.m_VAO = 1 ∧ g.m_ShaderProgram = 0 ∧
      ¬ ((g.m_VBO = 0 ∧ g.m_EBO = 0 ∧ g.m_VAO = 0 ∧ g.m_ShaderProgram = 0) ∨
         (g.m_VBO ≠ 0 ∧ g.m_EBO ≠ 0 ∧ g.m_VAO ≠ 0 ∧ g.m_ShaderProgram ≠ 0)) := by
  refine ⟨countingBackend_nonZero, _, _, rfl, rfl, rfl, rfl, rfl, rfl, ?_⟩
  intro h
  rcases h with ⟨h1, -⟩ | ⟨-, -, -, h4⟩
  · exact absurd h1 (by decide)
  · exact h4 rfl

end GameObjectSpec
